import Mathlib

/-!
Verification of the request admission, backpressure, batching and
scan-coordination layer of the repository, as a shallow embedding in Lean.

Conventions of the embedding:
* Python `float` quantities (tokens, rates, durations) and wall-clock
  timestamps (`datetime.now()`, `time.monotonic()`) are modelled as `ℚ`;
  timestamps are seconds on one global clock and are passed explicitly as a
  `now` argument wherever the Python code reads a clock.
* `await asyncio.sleep(w)` advances the clock by exactly `w`; functions that
  may sleep therefore return the clock value at which they complete.
* Python `None`-able values become `Option`; Python truthiness tests on them
  are modelled field by field (a `datetime` object is always truthy, a
  numeric `0` and an empty list are falsy).
* Exceptions become `Except`.
* Python dicts that the code builds by key insertion are modelled as
  association lists with replace-on-duplicate insertion, preserving the
  last-write-wins behaviour of `dict`.
-/

/-- `collections.deque(maxlen := cap)` append: add at the right, dropping the
oldest elements once the capacity is exceeded. -/
def dequeAppend {α : Type} (cap : ℕ) (l : List α) (a : α) : List α :=
  let l2 := l ++ [a]
  l2.drop (l2.length - cap)

/-- Python `dict` insertion `m[k] = v`: replaces the value at an existing key,
otherwise appends the binding (dicts preserve insertion order). -/
def dictInsert {α : Type} (m : List (String × α)) (k : String) (v : α) :
    List (String × α) :=
  if m.any (fun p => p.1 = k) then
    m.map (fun p => if p.1 = k then (k, v) else p)
  else
    m ++ [(k, v)]

/-- Python `dict` lookup `m.get(k)`. -/
def dictLookup {α : Type} (m : List (String × α)) (k : String) : Option α :=
  (m.find? (fun p => p.1 = k)).map (fun p => p.2)

/-- Python `k in m` for a dict. -/
def dictMem {α : Type} (m : List (String × α)) (k : String) : Bool :=
  m.any (fun p => p.1 = k)

/-- The `seconds` attribute of a Python `timedelta` of `d` seconds: after
normalisation to `(days, seconds, microseconds)` with `0 ≤ seconds < 86400`,
the `seconds` component is `⌊d⌋ mod 86400` (Euclidean remainder, matching
Python's floor-division normalisation also for negative spans).  This is NOT
`total_seconds()`: the day part of the span is discarded. -/
def timedeltaSeconds (d : ℚ) : ℤ :=
  ⌊d⌋ % 86400

namespace Backpressure

/-- `BackpressureStrategy` enum from `integration/backpressure.py`. -/
inductive Strategy where
  | fixed_window
  | sliding_window
  | token_bucket
  | adaptive
deriving DecidableEq, Repr

/-- `RequestMetrics` dataclass: metrics for a single request. -/
structure RequestMetrics where
  timestamp : ℚ
  duration : ℚ
  success : Bool
  queue_time : ℚ
deriving DecidableEq, Repr

/-- Constructor arguments of `BackpressureHandler.__init__` that are never
mutated (strategy, rates and circuit-breaker configuration). -/
structure Config where
  strategy : Strategy
  requests_per_second : ℚ
  burst_size : ℚ
  circuit_breaker_threshold : ℕ
  circuit_breaker_timeout : ℚ
deriving DecidableEq, Repr

/-- The defaults of `BackpressureHandler.__init__`. -/
def Config.default : Config :=
  { strategy := Strategy.token_bucket
    requests_per_second := 10
    burst_size := 20
    circuit_breaker_threshold := 5
    circuit_breaker_timeout := 60 }

/-- The mutable attributes of a `BackpressureHandler`. -/
structure State where
  circuit_breaker_failures : ℕ
  circuit_breaker_opened_at : Option ℚ
  tokens : ℚ
  last_refill : ℚ
  request_history : List RequestMetrics
  current_qps : ℚ
  average_response_time : ℚ
  adaptive_rate : ℚ
  target_response_time : ℚ
deriving DecidableEq, Repr

/-- The state `__init__` builds at wall-clock time `now`. -/
def State.init (cfg : Config) (now : ℚ) : State :=
  { circuit_breaker_failures := 0
    circuit_breaker_opened_at := none
    tokens := cfg.burst_size
    last_refill := now
    request_history := []
    current_qps := 0
    average_response_time := 0
    adaptive_rate := cfg.requests_per_second
    target_response_time := 1 }

/-- `_open_circuit_breaker`. -/
def openCircuitBreaker (s : State) (now : ℚ) : State :=
  { s with circuit_breaker_opened_at := some now }

/-- `_is_circuit_open`: checks the breaker and, when the timeout has passed,
resets it (lazily closing the circuit).  Returns the answer and the possibly
updated state.  The Python truthiness test `if not self.circuit_breaker_opened_at`
is exactly the `Option` match (a `datetime` is always truthy). -/
def isCircuitOpen (cfg : Config) (s : State) (now : ℚ) : Bool × State :=
  match s.circuit_breaker_opened_at with
  | none => (false, s)
  | some t0 =>
      if now - t0 > cfg.circuit_breaker_timeout then
        (false, { s with circuit_breaker_opened_at := none,
                         circuit_breaker_failures := 0 })
      else
        (true, s)

/-- `_token_bucket_acquire`, parametrised by the rate it reads from
`self.requests_per_second` (the adaptive strategy temporarily swaps that
attribute; passing the rate explicitly models the swap).  Returns the grant
decision, the new state and the clock value when the call returns (the short
internal sleep advances the clock). -/
def tokenBucketAcquire (cfg : Config) (rate : ℚ) (s : State) (now : ℚ) :
    Bool × State × ℚ :=
  let time_passed := now - s.last_refill
  let tokens1 := min cfg.burst_size (s.tokens + time_passed * rate)
  if 1 ≤ tokens1 then
    (true, { s with tokens := tokens1 - 1, last_refill := now }, now)
  else
    let wait_time := (1 - tokens1) / rate
    if wait_time < 1/10 then
      (true, { s with tokens := 0, last_refill := now }, now + wait_time)
    else
      (false, { s with tokens := tokens1, last_refill := now }, now)

/-- Timestamp of the oldest metric among `m :: rest`
(`min(recent_requests, key=lambda r: r.timestamp)`). -/
def oldestTimestamp (m : RequestMetrics) (rest : List RequestMetrics) : ℚ :=
  rest.foldl (fun acc r => min acc r.timestamp) m.timestamp

/-- `_sliding_window_acquire`.  When the window is full, Python takes
`min(...)` of a list that is provably non-empty whenever
`requests_per_second ≥ 0`; the impossible empty case is mapped to a reject. -/
def slidingWindowAcquire (cfg : Config) (s : State) (now : ℚ) :
    Bool × State × ℚ :=
  let recent := s.request_history.filter (fun r => decide (r.timestamp > now - 1))
  if (recent.length : ℚ) < cfg.requests_per_second then
    (true, s, now)
  else
    match recent with
    | [] => (false, s, now)
    | m :: rest =>
        let wait_time := oldestTimestamp m rest + 1 - now
        if 0 < wait_time ∧ wait_time < 1/10 then
          (true, s, now + wait_time)
        else
          (false, s, now)

/-- `_adaptive_acquire`: first adjusts `adaptive_rate` from the rolling
average response time, then delegates to the token bucket at the adapted
rate (the source swaps `requests_per_second` around the delegate call and
restores it; config is immutable here so only the passed rate differs). -/
def adaptiveAcquire (cfg : Config) (s : State) (now : ℚ) :
    Bool × State × ℚ :=
  let s1 :=
    if s.average_response_time > s.target_response_time * (3/2) then
      { s with adaptive_rate := max 1 (s.adaptive_rate * (9/10)) }
    else if s.average_response_time < s.target_response_time * (1/2) then
      let raised := min (cfg.requests_per_second * 2) (s.adaptive_rate * (11/10))
      { s with adaptive_rate := raised }
    else s
  tokenBucketAcquire cfg s1.adaptive_rate s1 now

/-- `acquire`: circuit-breaker check, then dispatch on the strategy.
`_fixed_window_acquire` just delegates to the token bucket, as in the
source.  The `priority` argument is unused by the source body and omitted. -/
def acquire (cfg : Config) (s : State) (now : ℚ) : Bool × State × ℚ :=
  let c := isCircuitOpen cfg s now
  if c.1 then
    (false, c.2, now)
  else
    match cfg.strategy with
    | Strategy.token_bucket => tokenBucketAcquire cfg cfg.requests_per_second c.2 now
    | Strategy.sliding_window => slidingWindowAcquire cfg c.2 now
    | Strategy.adaptive => adaptiveAcquire cfg c.2 now
    | Strategy.fixed_window => tokenBucketAcquire cfg cfg.requests_per_second c.2 now

/-- `_update_metrics`: recompute `current_qps` and `average_response_time`
over the metrics of the last 10 seconds.  Python leaves both untouched when
the window is empty, and leaves the average untouched when no request in the
window succeeded. -/
def updateMetrics (s : State) (now : ℚ) : State :=
  let recent := s.request_history.filter (fun r => decide (r.timestamp > now - 10))
  match recent with
  | [] => s
  | m :: rest =>
      let time_span := now - oldestTimestamp m rest
      let s1 := { s with current_qps := ((m :: rest).length : ℚ) / max 1 time_span }
      match (m :: rest).filter (fun r => r.success) with
      | [] => s1
      | q :: qs =>
          let avg := ((q :: qs).foldl (fun acc r => acc + r.duration) 0) /
            ((q :: qs).length : ℚ)
          { s1 with average_response_time := avg }

/-- `record_request`: append the metric to the bounded history, update the
circuit breaker (a success resets the failure counter, a failure increments
it and opens the breaker at the threshold), then refresh the rolling
metrics. -/
def record_request (cfg : Config) (s : State) (now duration : ℚ)
    (success : Bool) (queue_time : ℚ) : State :=
  let metric : RequestMetrics :=
    { timestamp := now, duration := duration, success := success,
      queue_time := queue_time }
  let s1 := { s with request_history := dequeAppend 1000 s.request_history metric }
  let s2 :=
    if success then
      { s1 with circuit_breaker_failures := 0 }
    else
      let f := s1.circuit_breaker_failures + 1
      let s1f := { s1 with circuit_breaker_failures := f }
      if cfg.circuit_breaker_threshold ≤ f then
        openCircuitBreaker s1f now
      else
        s1f
  updateMetrics s2 now

end Backpressure

namespace RateLimiter

/-- `RateLimitConfig` from `config/settings.py` (fields the limiter reads). -/
structure RateLimitConfig where
  max_requests_per_second : ℚ
deriving DecidableEq, Repr

/-- Default `RateLimitConfig()` (45 req/sec, safety margin below 50). -/
def RateLimitConfig.default : RateLimitConfig :=
  { max_requests_per_second := 45 }

/-- `RequestStats` dataclass.  `last_reset` is a wall-clock datetime used only
for display and is omitted. -/
structure RequestStats where
  total_requests : ℕ
  rejected_requests : ℕ
  queued_requests : ℕ
  average_wait_time : ℚ
  current_rate : ℚ
deriving DecidableEq, Repr

/-- The mutable attributes of a `RateLimiter`: token-bucket state, statistics
and the bounded deque of recent request times (maxlen 100).  In the source
`_tokens`, `_max_tokens` and `_refill_rate` are all initialised from
`config.max_requests_per_second`. -/
structure State where
  tokens : ℚ
  max_tokens : ℚ
  refill_rate : ℚ
  last_refill : ℚ
  stats : RequestStats
  request_times : List ℚ
deriving DecidableEq, Repr

/-- The state `__init__` builds at monotonic-clock time `now`. -/
def State.init (config : RateLimitConfig) (now : ℚ) : State :=
  { tokens := config.max_requests_per_second
    max_tokens := config.max_requests_per_second
    refill_rate := config.max_requests_per_second
    last_refill := now
    stats := { total_requests := 0, rejected_requests := 0,
               queued_requests := 0, average_wait_time := 0, current_rate := 0 }
    request_times := [] }

/-- `_refill_tokens`. -/
def refillTokens (s : State) (now : ℚ) : State :=
  let elapsed := now - s.last_refill
  let tokens_to_add := elapsed * s.refill_rate
  { s with tokens := min s.max_tokens (s.tokens + tokens_to_add),
           last_refill := now }

/-- `_consume_token`. -/
def consumeToken (s : State) : State :=
  { s with tokens := max 0 (s.tokens - 1) }

/-- `_update_current_rate`: number of recorded request times within the last
second, or 0 when fewer than two requests were recorded. -/
def updateCurrentRate (s : State) (now : ℚ) : State :=
  if s.request_times.length < 2 then
    { s with stats := { s.stats with current_rate := 0 } }
  else
    let recent := (s.request_times.filter (fun t => decide (t > now - 1))).length
    { s with stats := { s.stats with current_rate := (recent : ℚ) } }

/-- `_update_average_wait_time`: exponential moving average with factor 0.1. -/
def updateAverageWaitTime (s : State) (wait_time : ℚ) : State :=
  let avg := (1/10) * wait_time + (1 - 1/10) * s.stats.average_wait_time
  { s with stats := { s.stats with average_wait_time := avg } }

/-- The Python test `if timeout and wait_time > timeout`: `timeout` is truthy
only when supplied and non-zero. -/
def timeoutExceeded (timeout : Option ℚ) (wait_time : ℚ) : Bool :=
  match timeout with
  | none => false
  | some t => if t = 0 then false else decide (wait_time > t)

/-- The statistics bookkeeping after the critical section of `acquire`
(counter, request-time deque, current rate, average wait). -/
def recordAcquire (s : State) (finish actual_wait : ℚ) : State :=
  let s1 := { s with stats := { s.stats with total_requests := s.stats.total_requests + 1 },
                     request_times := dequeAppend 100 s.request_times finish }
  updateAverageWaitTime (updateCurrentRate s1 finish) actual_wait

/-- `acquire(priority, timeout)`: refill, then either consume immediately,
or reject with `RateLimitError(retry_after := wait_time)` when a truthy
timeout is smaller than the required wait, or sleep for the wait and then
refill-and-consume.  On success it returns the measured elapsed time
(`actual_wait`, equal to the slept wait under the exact-sleep clock model)
and the new state; on rejection the error carries `retry_after` and the
state with `rejected_requests` incremented (the statistics tail of the
function does not run, since the exception propagates).  The `priority`
argument is unused by the source body and omitted. -/
def acquire (s : State) (now : ℚ) (timeout : Option ℚ) :
    Except (ℚ × State) (ℚ × State) :=
  let s1 := refillTokens s now
  if 1 ≤ s1.tokens then
    Except.ok (0, recordAcquire (consumeToken s1) now 0)
  else
    let tokens_needed := 1 - s1.tokens
    let wait_time := tokens_needed / s1.refill_rate
    if timeoutExceeded timeout wait_time then
      Except.error (wait_time,
        { s1 with stats := { s1.stats with rejected_requests := s1.stats.rejected_requests + 1 } })
    else
      let s2 := { s1 with stats := { s1.stats with queued_requests := s1.stats.queued_requests + 1 } }
      let now2 := now + wait_time
      let s3 := consumeToken (refillTokens s2 now2)
      Except.ok (now2 - now, recordAcquire s3 now2 (now2 - now))

/-- `check_rate`: refill, then report token availability; the refill
bookkeeping is the only side effect. -/
def checkRate (s : State) (now : ℚ) : Bool × State :=
  let s1 := refillTokens s now
  (decide (1 ≤ s1.tokens), s1)

end RateLimiter

namespace Scanner

/-- Scan results (`VerticalSpread` lists) are opaque at this layer: spreads
are modelled as identifiers. -/
abbrev Spread := ℕ

/-- The coordinator attributes that the caching logic of
`scanner_coordinator.py` reads and writes: the two cache dicts and the
metrics counters.  Job bookkeeping, the worker pool and the nested
backpressure handler do not feed back into cache behaviour and are kept out
of this record; the wait-until-done polling of `scan_symbol` is modelled by
running the job synchronously. -/
structure CoordState where
  scan_cache : List (String × List Spread)
  cache_timestamps : List (String × ℚ)
  cache_hits : ℕ
  total_scans : ℕ
  successful_scans : ℕ
  failed_scans : ℕ
deriving DecidableEq, Repr

/-- The cache-relevant state `__init__` builds. -/
def CoordState.init : CoordState :=
  { scan_cache := [], cache_timestamps := [], cache_hits := 0,
    total_scans := 0, successful_scans := 0, failed_scans := 0 }

/-- `scan_symbol(symbol, filters, use_cache)` with the job queue, worker and
completion-polling loop collapsed into a synchronous run of
`_process_scan_job`:

* `key` is `_get_cache_key(symbol, filters)` — a deterministic function of
  symbol and filters, so the two lookups of it inside one call agree;
* `scanResult` is what `self.scanner.scan(request)` would produce for this
  request right now (`ok spreads`, or `error e` when it raises);
* the result is the value returned (or error raised), the new state, and
  how many times the underlying external scan ran during the call (`0` on a
  cache hit, `1` otherwise).

The freshness test is Python's
`(datetime.now() - timestamp).seconds < self.scan_cache_ttl`, i.e. it uses
the `seconds` component of the timedelta, not `total_seconds()`.  A completed
job caches and returns its result only when the result list is truthy
(non-empty); a completed job with an empty result list skips the cache write
and returns `[]`. -/
def scan_symbol (ttl : ℤ) (key : String) (scanResult : Except String (List Spread))
    (s : CoordState) (use_cache : Bool) (now : ℚ) :
    Except String (List Spread) × CoordState × ℕ :=
  let hit : Option (List Spread) :=
    if use_cache then
      if dictMem s.scan_cache key then
        match dictLookup s.cache_timestamps key, dictLookup s.scan_cache key with
        | some ts, some v =>
            if timedeltaSeconds (now - ts) < ttl then some v else none
        | _, _ => none
      else none
    else none
  match hit with
  | some v => (Except.ok v, { s with cache_hits := s.cache_hits + 1 }, 0)
  | none =>
      match scanResult with
      | Except.ok spreads =>
          let s1 := { s with total_scans := s.total_scans + 1,
                             successful_scans := s.successful_scans + 1 }
          if spreads.isEmpty then
            (Except.ok [], s1, 1)
          else
            (Except.ok spreads,
             { s1 with scan_cache := dictInsert s1.scan_cache key spreads,
                       cache_timestamps := dictInsert s1.cache_timestamps key now },
             1)
      | Except.error e =>
          (Except.error e, { s with failed_scans := s.failed_scans + 1 }, 1)

/-- One pass of `_cache_cleanup_worker`: collect the keys whose timedelta
`seconds` component exceeds the TTL and delete them from both dicts. -/
def cacheCleanupStep (ttl : ℤ) (s : CoordState) (now : ℚ) : CoordState :=
  let expired_keys := (s.cache_timestamps.filter
      (fun p => decide (ttl < timedeltaSeconds (now - p.2)))).map (fun p => p.1)
  { s with
    scan_cache := s.scan_cache.filter (fun p => !(expired_keys.contains p.1)),
    cache_timestamps :=
      s.cache_timestamps.filter (fun p => !(expired_keys.contains p.1)) }

end Scanner

namespace Batch

/-- `ScanRequest` as the batch processor sees it: the symbol keys all result
routing; the remaining payload (filters, limit) only distinguishes
requests. -/
structure ScanRequest where
  symbol : String
  filters : List String
  limit : ℕ
deriving DecidableEq, Repr

/-- The mutable result maps of a `BatchRequest` (`results` and `errors`,
both dicts keyed by symbol). -/
structure BatchRequest where
  results : List (String × List Scanner.Spread)
  errors : List (String × String)
deriving DecidableEq, Repr

/-- Running counters of the processor metrics dict touched by
`_process_batch`. -/
structure BatchMetrics where
  successful_requests : ℕ
  failed_requests : ℕ
deriving DecidableEq, Repr

/-- `_flush_pending_batch` builds
`futures = \x7breq.symbol: fut for req, fut in self.pending_batch\x7d`:
a dict comprehension over the pending `(request, future)` pairs, keyed by
symbol, so a later pair with the same symbol overwrites an earlier one.
Futures are identified by `ℕ` handles. -/
def buildFutures (pending : List (ScanRequest × ℕ)) : List (String × ℕ) :=
  pending.foldl (fun m p => dictInsert m p.1.symbol p.2) []

/-- `_process_single_request`: acquire backpressure, run the scan, store the
result keyed by symbol; on an exception store the error keyed by symbol and
re-raise.  `exec` is the outcome `self.scanner.scan(request)` would have for
each request. -/
def processSingleRequest (exec : ScanRequest → Except String (List Scanner.Spread))
    (request : ScanRequest) (b : BatchRequest) : BatchRequest × Option String :=
  match exec request with
  | Except.ok spreads =>
      ({ b with results := dictInsert b.results request.symbol spreads }, none)
  | Except.error e =>
      ({ b with errors := dictInsert b.errors request.symbol e }, some e)

/-- The per-request half of `_process_batch`: each request is handed to
`_process_single_request`; a propagated exception is recorded into
`batch.errors` (again, same key and message) and counted as failed, a
normal return is counted as successful.  The source launches the requests
as tasks and awaits them in submission order; the effects on the
symbol-keyed maps are accumulated here in that order. -/
def processBatch (exec : ScanRequest → Except String (List Scanner.Spread))
    (reqs : List ScanRequest) (b : BatchRequest) (m : BatchMetrics) :
    BatchRequest × BatchMetrics :=
  reqs.foldl
    (fun acc request =>
      let r := processSingleRequest exec request acc.1
      match r.2 with
      | none =>
          (r.1, { acc.2 with successful_requests := acc.2.successful_requests + 1 })
      | some e =>
          ({ r.1 with errors := dictInsert r.1.errors request.symbol e },
           { acc.2 with failed_requests := acc.2.failed_requests + 1 }))
    (b, m)

/-- The future-resolution half of `_process_batch`: every future in the
symbol-keyed futures dict is resolved — with the recorded error when its
symbol is in `batch.errors`, else with `batch.results.get(symbol, [])`. -/
def resolveFutures (futures : List (String × ℕ)) (b : BatchRequest) :
    List (ℕ × Except String (List Scanner.Spread)) :=
  futures.map (fun sf =>
    (sf.2,
     match dictLookup b.errors sf.1 with
     | some e => Except.error e
     | none => Except.ok ((dictLookup b.results sf.1).getD [])))

/-- End-to-end batch path for a flushed pending list: build the futures
dict, process every request of the batch, resolve the futures.  The result
associates each resolved future handle with the value or error its awaiting
caller receives. -/
def processBatchAndResolve (exec : ScanRequest → Except String (List Scanner.Spread))
    (pending : List (ScanRequest × ℕ)) :
    List (ℕ × Except String (List Scanner.Spread)) :=
  let futures := buildFutures pending
  let start : BatchRequest × BatchMetrics := (⟨[], []⟩, ⟨0, 0⟩)
  let done := processBatch exec (pending.map (fun p => p.1)) start.1 start.2
  resolveFutures futures done.1

end Batch

namespace RateLimiter

/-- The wait `acquire` computes when no whole token is available:
`(1 - tokens) / refill_rate` after the refill. -/
def requiredWait (s : State) (now : ℚ) : ℚ :=
  (1 - (refillTokens s now).tokens) / (refillTokens s now).refill_rate

theorem refillTokens_refill_rate (s : State) (now : ℚ) :
    (refillTokens s now).refill_rate = s.refill_rate := rfl

theorem refillTokens_stats (s : State) (now : ℚ) :
    (refillTokens s now).stats = s.stats := rfl

theorem refillTokens_max_tokens (s : State) (now : ℚ) :
    (refillTokens s now).max_tokens = s.max_tokens := rfl

end RateLimiter

/-- C10: `RateLimiter.acquire` treats a supplied timeout of `0` like no
timeout: when fewer than one token is available after the refill, the call
with `timeout = 0` never rejects — whatever the required wait is, it sleeps
for that wait and then grants, returning the computed wait — because the
rejection branch tests the truthiness of the timeout argument rather than
its presence. -/
theorem C10_timeout_zero_never_rejects (s : RateLimiter.State) (now : ℚ)
    (hlow : (RateLimiter.refillTokens s now).tokens < 1) :
    ∃ p, RateLimiter.acquire s now (some 0) = Except.ok p ∧
      p.fst = RateLimiter.requiredWait s now := by
  unfold RateLimiter.acquire RateLimiter.timeoutExceeded
  rw [if_neg (not_le.mpr hlow)]
  simp only [if_pos rfl, Bool.false_eq_true, if_false]
  refine ⟨_, rfl, ?_⟩
  simp only [RateLimiter.requiredWait]
  ring

/-- Witness for C10 at a concrete input: an exhausted bucket
(`tokens = 0`, rate 1) at time 0 with `timeout = 0`. -/
theorem C10_timeout_zero_never_rejects_witness :
    (RateLimiter.refillTokens ⟨0, 1, 1, 0, ⟨0, 0, 0, 0, 0⟩, []⟩ 0).tokens < 1 ∧
    ∃ p, RateLimiter.acquire ⟨0, 1, 1, 0, ⟨0, 0, 0, 0, 0⟩, []⟩ 0 (some 0) =
      Except.ok p ∧
      p.fst = RateLimiter.requiredWait ⟨0, 1, 1, 0, ⟨0, 0, 0, 0, 0⟩, []⟩ 0 := by
  refine ⟨by norm_num [RateLimiter.refillTokens], ?_⟩
  exact C10_timeout_zero_never_rejects _ _ (by norm_num [RateLimiter.refillTokens])

namespace RateLimiter

theorem updateCurrentRate_tokens (s : State) (now : ℚ) :
    (updateCurrentRate s now).tokens = s.tokens := by
  unfold updateCurrentRate
  split <;> rfl

theorem updateAverageWaitTime_tokens (s : State) (w : ℚ) :
    (updateAverageWaitTime s w).tokens = s.tokens := rfl

theorem recordAcquire_tokens (s : State) (f w : ℚ) :
    (recordAcquire s f w).tokens = s.tokens := by
  unfold recordAcquire
  rw [updateAverageWaitTime_tokens, updateCurrentRate_tokens]

theorem consumeToken_tokens (s : State) :
    (consumeToken s).tokens = max 0 (s.tokens - 1) := rfl

theorem timeoutExceeded_some (t w : ℚ) (ht : t ≠ 0) :
    timeoutExceeded (some t) w = decide (w > t) := by
  simp [timeoutExceeded, ht]

end RateLimiter

/-- C8 counterexample: a supplied timeout of `0` with an exhausted bucket
(required wait `1` second `>` timeout `0`) does not raise `RateLimitError`
— `acquire` returns normally — contradicting the claim read over every
supplied timeout. -/
theorem C8_counterexample :
    RateLimiter.requiredWait ⟨0, 1, 1, 0, ⟨0, 0, 0, 0, 0⟩, []⟩ 0 > 0 ∧
    (RateLimiter.acquire ⟨0, 1, 1, 0, ⟨0, 0, 0, 0, 0⟩, []⟩ 0 (some 0)).isOk = true := by
  constructor
  · norm_num [RateLimiter.requiredWait, RateLimiter.refillTokens]
  · norm_num [RateLimiter.acquire, RateLimiter.refillTokens,
      RateLimiter.timeoutExceeded, RateLimiter.consumeToken,
      RateLimiter.recordAcquire, Except.isOk, Except.toBool]

/-- C8 (amended): for every `acquire(priority, timeout)` call finding fewer
than one token after the refill, with a NON-ZERO supplied timeout: if the
computed wait `(1 - tokens) / refill_rate` exceeds the timeout, the call
raises `RateLimitError` carrying that wait as the `retry_after` hint and
increments `rejected_requests`, with no token consumed; otherwise the caller
waits the computed time, a token is then consumed, and the elapsed wait is
returned. -/
theorem C8_rate_limiter_timeout_path (s : RateLimiter.State) (now t : ℚ)
    (ht : t ≠ 0) (hlow : (RateLimiter.refillTokens s now).tokens < 1) :
    (RateLimiter.requiredWait s now > t →
      ∃ s2, RateLimiter.acquire s now (some t) =
          Except.error (RateLimiter.requiredWait s now, s2) ∧
        s2.stats.rejected_requests = s.stats.rejected_requests + 1 ∧
        s2.tokens = (RateLimiter.refillTokens s now).tokens) ∧
    (¬ RateLimiter.requiredWait s now > t →
      ∃ p, RateLimiter.acquire s now (some t) = Except.ok p ∧
        p.fst = RateLimiter.requiredWait s now ∧
        p.snd.tokens = max 0 (min s.max_tokens
          ((RateLimiter.refillTokens s now).tokens +
            RateLimiter.requiredWait s now * s.refill_rate) - 1)) := by
  have hreq : RateLimiter.requiredWait s now =
      (1 - (RateLimiter.refillTokens s now).tokens) /
        (RateLimiter.refillTokens s now).refill_rate := rfl
  constructor
  · intro hgt
    rw [hreq] at hgt ⊢
    unfold RateLimiter.acquire
    dsimp only
    rw [if_neg (not_le.mpr hlow), RateLimiter.timeoutExceeded_some _ _ ht,
      decide_eq_true hgt, if_pos rfl]
    exact ⟨_, rfl, rfl, rfl⟩
  · intro hle
    rw [hreq] at hle ⊢
    unfold RateLimiter.acquire
    dsimp only
    rw [if_neg (not_le.mpr hlow), RateLimiter.timeoutExceeded_some _ _ ht,
      decide_eq_false hle]
    simp only [Bool.false_eq_true, if_false]
    refine ⟨_, rfl, add_sub_cancel_left _ _, ?_⟩
    rw [RateLimiter.recordAcquire_tokens, RateLimiter.consumeToken_tokens]
    dsimp only [RateLimiter.refillTokens]
    ring_nf

/-- Witness for the amended C8: both branches exercised concretely — an
exhausted bucket with rate 1 and timeout `1/2` (wait 1 exceeds it, so it
rejects), and the same bucket with timeout `2` (wait 1 fits, so it sleeps
and grants). -/
theorem C8_rate_limiter_timeout_path_witness :
    ((1 : ℚ) / 2 ≠ 0 ∧
      (RateLimiter.refillTokens ⟨0, 1, 1, 0, ⟨0, 0, 0, 0, 0⟩, []⟩ 0).tokens < 1 ∧
      ∃ s2, RateLimiter.acquire ⟨0, 1, 1, 0, ⟨0, 0, 0, 0, 0⟩, []⟩ 0 (some (1/2)) =
          Except.error (RateLimiter.requiredWait ⟨0, 1, 1, 0, ⟨0, 0, 0, 0, 0⟩, []⟩ 0, s2) ∧
        s2.stats.rejected_requests = 0 + 1 ∧
        s2.tokens = (RateLimiter.refillTokens ⟨0, 1, 1, 0, ⟨0, 0, 0, 0, 0⟩, []⟩ 0).tokens) ∧
    ((2 : ℚ) ≠ 0 ∧
      ∃ p, RateLimiter.acquire ⟨0, 1, 1, 0, ⟨0, 0, 0, 0, 0⟩, []⟩ 0 (some 2) =
          Except.ok p ∧
        p.fst = RateLimiter.requiredWait ⟨0, 1, 1, 0, ⟨0, 0, 0, 0, 0⟩, []⟩ 0 ∧
        p.snd.tokens = max 0 (min (1 : ℚ)
          ((RateLimiter.refillTokens ⟨0, 1, 1, 0, ⟨0, 0, 0, 0, 0⟩, []⟩ 0).tokens +
            RateLimiter.requiredWait ⟨0, 1, 1, 0, ⟨0, 0, 0, 0, 0⟩, []⟩ 0 * 1) - 1)) := by
  have hlow : (RateLimiter.refillTokens ⟨0, 1, 1, 0, ⟨0, 0, 0, 0, 0⟩, []⟩ (0 : ℚ)).tokens < 1 := by
    norm_num [RateLimiter.refillTokens]
  have hwait : RateLimiter.requiredWait ⟨0, 1, 1, 0, ⟨0, 0, 0, 0, 0⟩, []⟩ (0 : ℚ) = 1 := by
    norm_num [RateLimiter.requiredWait, RateLimiter.refillTokens]
  constructor
  · refine ⟨by norm_num, hlow, ?_⟩
    exact (C8_rate_limiter_timeout_path _ _ _ (by norm_num) hlow).1 (by rw [hwait]; norm_num)
  · refine ⟨by norm_num, ?_⟩
    exact (C8_rate_limiter_timeout_path _ _ _ (by norm_num) hlow).2 (by rw [hwait]; norm_num)

/-- C3: the code violates the claim.  `scan_symbol` tests freshness with
`(datetime.now() - timestamp).seconds < scan_cache_ttl`, the `seconds`
COMPONENT of the timedelta (the age modulo one day), not `total_seconds()`.
An entry cached 86410 seconds ago (one day and ten seconds) with
`scan_cache_ttl = 300` has `seconds = 10 < 300`, so `scan_symbol` with
`use_cache = True` returns it from the cache (no external scan, cache-hit
counter bumped) even though its age exceeds the TTL; the periodic cleanup
worker applies the same `seconds` test and does not evict it either. -/
theorem C3_expired_entry_returned :
    (86410 : ℚ) - 0 > 300 ∧
    timedeltaSeconds ((86410 : ℚ) - 0) = 10 ∧
    Scanner.scan_symbol 300 "AAPL" (Except.ok [99])
        ⟨[("AAPL", [7])], [("AAPL", 0)], 0, 0, 0, 0⟩ true 86410 =
      (Except.ok [7], ⟨[("AAPL", [7])], [("AAPL", 0)], 1, 0, 0, 0⟩, 0) ∧
    Scanner.cacheCleanupStep 300 ⟨[("AAPL", [7])], [("AAPL", 0)], 0, 0, 0, 0⟩ 86410 =
      ⟨[("AAPL", [7])], [("AAPL", 0)], 0, 0, 0, 0⟩ := by
  refine ⟨by norm_num, ?_, ?_, ?_⟩
  · norm_num [timedeltaSeconds]
  · norm_num [Scanner.scan_symbol, dictMem, dictLookup, timedeltaSeconds,
      List.find?, List.any]
  · norm_num [Scanner.cacheCleanupStep, timedeltaSeconds, List.filter]

namespace Backpressure

theorem updateMetrics_failures (s : State) (now : ℚ) :
    (updateMetrics s now).circuit_breaker_failures = s.circuit_breaker_failures := by
  unfold updateMetrics
  dsimp only
  split
  · rfl
  · split <;> rfl

theorem updateMetrics_opened_at (s : State) (now : ℚ) :
    (updateMetrics s now).circuit_breaker_opened_at = s.circuit_breaker_opened_at := by
  unfold updateMetrics
  dsimp only
  split
  · rfl
  · split <;> rfl

theorem updateMetrics_tokens (s : State) (now : ℚ) :
    (updateMetrics s now).tokens = s.tokens := by
  unfold updateMetrics
  dsimp only
  split
  · rfl
  · split <;> rfl

theorem updateMetrics_last_refill (s : State) (now : ℚ) :
    (updateMetrics s now).last_refill = s.last_refill := by
  unfold updateMetrics
  dsimp only
  split
  · rfl
  · split <;> rfl

theorem updateMetrics_adaptive_rate (s : State) (now : ℚ) :
    (updateMetrics s now).adaptive_rate = s.adaptive_rate := by
  unfold updateMetrics
  dsimp only
  split
  · rfl
  · split <;> rfl

theorem updateMetrics_target (s : State) (now : ℚ) :
    (updateMetrics s now).target_response_time = s.target_response_time := by
  unfold updateMetrics
  dsimp only
  split
  · rfl
  · split <;> rfl

theorem record_request_tokens (cfg : Config) (s : State) (now d : ℚ)
    (b : Bool) (q : ℚ) :
    (record_request cfg s now d b q).tokens = s.tokens := by
  unfold record_request
  rw [updateMetrics_tokens]
  cases b
  · dsimp only
    rw [if_neg Bool.false_ne_true]
    split <;> rfl
  · dsimp only
    rw [if_pos rfl]

theorem record_request_last_refill (cfg : Config) (s : State) (now d : ℚ)
    (b : Bool) (q : ℚ) :
    (record_request cfg s now d b q).last_refill = s.last_refill := by
  unfold record_request
  rw [updateMetrics_last_refill]
  cases b
  · dsimp only
    rw [if_neg Bool.false_ne_true]
    split <;> rfl
  · dsimp only
    rw [if_pos rfl]

theorem record_request_adaptive_rate (cfg : Config) (s : State) (now d : ℚ)
    (b : Bool) (q : ℚ) :
    (record_request cfg s now d b q).adaptive_rate = s.adaptive_rate := by
  unfold record_request
  rw [updateMetrics_adaptive_rate]
  cases b
  · dsimp only
    rw [if_neg Bool.false_ne_true]
    split <;> rfl
  · dsimp only
    rw [if_pos rfl]

theorem record_request_success_failures (cfg : Config) (s : State) (now d q : ℚ) :
    (record_request cfg s now d true q).circuit_breaker_failures = 0 := by
  unfold record_request
  rw [updateMetrics_failures]
  dsimp only
  rw [if_pos rfl]

theorem record_request_success_opened_at (cfg : Config) (s : State) (now d q : ℚ) :
    (record_request cfg s now d true q).circuit_breaker_opened_at =
      s.circuit_breaker_opened_at := by
  unfold record_request
  rw [updateMetrics_opened_at]
  dsimp only
  rw [if_pos rfl]

theorem record_request_fail_failures (cfg : Config) (s : State) (now d q : ℚ) :
    (record_request cfg s now d false q).circuit_breaker_failures =
      s.circuit_breaker_failures + 1 := by
  unfold record_request
  rw [updateMetrics_failures]
  dsimp only
  rw [if_neg Bool.false_ne_true]
  split <;> rfl

theorem record_request_fail_opened_at_ge (cfg : Config) (s : State) (now d q : ℚ)
    (h : cfg.circuit_breaker_threshold ≤ s.circuit_breaker_failures + 1) :
    (record_request cfg s now d false q).circuit_breaker_opened_at = some now := by
  unfold record_request
  rw [updateMetrics_opened_at]
  dsimp only
  rw [if_neg Bool.false_ne_true, if_pos h]
  rfl

theorem record_request_fail_opened_at_lt (cfg : Config) (s : State) (now d q : ℚ)
    (h : ¬ cfg.circuit_breaker_threshold ≤ s.circuit_breaker_failures + 1) :
    (record_request cfg s now d false q).circuit_breaker_opened_at =
      s.circuit_breaker_opened_at := by
  unfold record_request
  rw [updateMetrics_opened_at]
  dsimp only
  rw [if_neg Bool.false_ne_true, if_neg h]

theorem tokenBucketAcquire_opened_at (cfg : Config) (rate : ℚ) (s : State) (now : ℚ) :
    ((tokenBucketAcquire cfg rate s now).2.1).circuit_breaker_opened_at =
      s.circuit_breaker_opened_at := by
  unfold tokenBucketAcquire
  dsimp only
  split
  · rfl
  · split <;> rfl

theorem tokenBucketAcquire_failures (cfg : Config) (rate : ℚ) (s : State) (now : ℚ) :
    ((tokenBucketAcquire cfg rate s now).2.1).circuit_breaker_failures =
      s.circuit_breaker_failures := by
  unfold tokenBucketAcquire
  dsimp only
  split
  · rfl
  · split <;> rfl

theorem slidingWindowAcquire_state (cfg : Config) (s : State) (now : ℚ) :
    (slidingWindowAcquire cfg s now).2.1 = s := by
  unfold slidingWindowAcquire
  dsimp only
  split
  · rfl
  · split
    · rfl
    · split <;> rfl

theorem adaptiveAcquire_opened_at (cfg : Config) (s : State) (now : ℚ) :
    ((adaptiveAcquire cfg s now).2.1).circuit_breaker_opened_at =
      s.circuit_breaker_opened_at := by
  unfold adaptiveAcquire
  dsimp only
  split
  · rw [tokenBucketAcquire_opened_at]
  · split <;> rw [tokenBucketAcquire_opened_at]

theorem adaptiveAcquire_failures (cfg : Config) (s : State) (now : ℚ) :
    ((adaptiveAcquire cfg s now).2.1).circuit_breaker_failures =
      s.circuit_breaker_failures := by
  unfold adaptiveAcquire
  dsimp only
  split
  · rw [tokenBucketAcquire_failures]
  · split <;> rw [tokenBucketAcquire_failures]

/-- Dispatching any strategy never opens or closes the breaker: only the
circuit check and `record_request` touch `circuit_breaker_opened_at` and
`circuit_breaker_failures`. -/
theorem strategy_preserves_breaker (cfg : Config) (s : State) (now : ℚ)
    (h : s.circuit_breaker_opened_at = none) :
    ((acquire cfg s now).2.1).circuit_breaker_opened_at = none ∧
    ((acquire cfg s now).2.1).circuit_breaker_failures = s.circuit_breaker_failures := by
  unfold acquire isCircuitOpen
  rw [h]
  dsimp only
  rw [if_neg Bool.false_ne_true]
  cases cfg.strategy
  case fixed_window =>
    exact ⟨(tokenBucketAcquire_opened_at _ _ _ _).trans h,
      tokenBucketAcquire_failures _ _ _ _⟩
  case sliding_window =>
    rw [slidingWindowAcquire_state]
    exact ⟨h, rfl⟩
  case token_bucket =>
    exact ⟨(tokenBucketAcquire_opened_at _ _ _ _).trans h,
      tokenBucketAcquire_failures _ _ _ _⟩
  case adaptive =>
    exact ⟨(adaptiveAcquire_opened_at _ _ _).trans h, adaptiveAcquire_failures _ _ _⟩

end Backpressure

namespace Backpressure

/-- When the circuit is open and the timeout has passed, `acquire` behaves
exactly as if called on the state with the breaker already reset (opened_at
cleared, failure counter zeroed). -/
theorem acquire_timeout_reset (cfg : Config) (s : State) (now t0 : ℚ)
    (h : s.circuit_breaker_opened_at = some t0)
    (ht : now - t0 > cfg.circuit_breaker_timeout) :
    acquire cfg s now =
      acquire cfg { s with circuit_breaker_opened_at := none,
                           circuit_breaker_failures := 0 } now := by
  unfold acquire isCircuitOpen
  rw [h]
  dsimp only
  rw [if_pos ht]

end Backpressure

/-- One failure record on a fresh default handler at time 0
(the C4 scenario builds five of these, then one success record). -/
def c4Step (s : Backpressure.State) : Backpressure.State :=
  Backpressure.record_request Backpressure.Config.default s 0 1 false 0

/-- Five consecutive failure records from a fresh default handler: the
circuit breaker opens at the fifth (threshold 5). -/
def c4FailState : Backpressure.State :=
  c4Step (c4Step (c4Step (c4Step (c4Step
    (Backpressure.State.init Backpressure.Config.default 0)))))

/-- …followed by one success record: the failure counter resets to 0 but
`circuit_breaker_opened_at` stays set. -/
def c4FinalState : Backpressure.State :=
  Backpressure.record_request Backpressure.Config.default c4FailState 0 1 true 0

/-- C4 counterexample: the reachable state after five failure records and
one success record (all at time 0, from a fresh default handler) has
`circuit_breaker_opened_at = some 0` while `circuit_breaker_failures = 0 <
threshold = 5`: a recorded success resets the failure counter without
closing the circuit, so "`opened_at` is non-None only when
`failures ≥ threshold`" is violated. -/
theorem C4_counterexample :
    c4FinalState.circuit_breaker_opened_at = some 0 ∧
    c4FinalState.circuit_breaker_failures = 0 ∧
    Backpressure.Config.default.circuit_breaker_threshold = 5 := by
  have hth : Backpressure.Config.default.circuit_breaker_threshold ≤
      (c4Step (c4Step (c4Step (c4Step (Backpressure.State.init
        Backpressure.Config.default 0))))).circuit_breaker_failures + 1 := by
    simp only [c4Step, Backpressure.record_request_fail_failures]
    norm_num [Backpressure.State.init, Backpressure.Config.default]
  have hopen : c4FailState.circuit_breaker_opened_at = some 0 :=
    Backpressure.record_request_fail_opened_at_ge _ _ _ _ _ hth
  refine ⟨?_, Backpressure.record_request_success_failures _ _ _ _ _, rfl⟩
  show (Backpressure.record_request Backpressure.Config.default
    c4FailState 0 1 true 0).circuit_breaker_opened_at = some 0
  rw [Backpressure.record_request_success_opened_at]
  exact hopen

/-- C4 (amended): the breaker invariant holds per transition, not per state:
(a) a `record_request` call can newly set `circuit_breaker_opened_at` only
to the current time, only on a failure, and only when the resulting failure
count has reached the threshold (but a later recorded success resets the
counter to 0 WITHOUT clearing `opened_at`, breaking the per-state reading);
(b) the breaker is cleared — `opened_at := None`, failure counter 0 — by
the circuit check of the next `acquire` call occurring strictly more than
`circuit_breaker_timeout` seconds after `opened_at`. -/
theorem C4_breaker_transitions (cfg : Backpressure.Config)
    (s : Backpressure.State) (now d q t t0 : ℚ) (b : Bool) :
    (s.circuit_breaker_opened_at = none →
      (Backpressure.record_request cfg s now d b q).circuit_breaker_opened_at = some t →
      t = now ∧ b = false ∧
        cfg.circuit_breaker_threshold ≤
          (Backpressure.record_request cfg s now d b q).circuit_breaker_failures) ∧
    (s.circuit_breaker_opened_at = some t0 →
      now - t0 > cfg.circuit_breaker_timeout →
      ((Backpressure.acquire cfg s now).2.1).circuit_breaker_opened_at = none ∧
      ((Backpressure.acquire cfg s now).2.1).circuit_breaker_failures = 0) := by
  constructor
  · intro hnone hset
    cases b
    · by_cases hth : cfg.circuit_breaker_threshold ≤ s.circuit_breaker_failures + 1
      · rw [Backpressure.record_request_fail_opened_at_ge _ _ _ _ _ hth] at hset
        refine ⟨(Option.some_inj.mp hset).symm, rfl, ?_⟩
        rw [Backpressure.record_request_fail_failures]
        exact hth
      · rw [Backpressure.record_request_fail_opened_at_lt _ _ _ _ _ hth, hnone] at hset
        exact absurd hset (by simp)
    · rw [Backpressure.record_request_success_opened_at, hnone] at hset
      exact absurd hset (by simp)
  · intro hopen ht
    rw [Backpressure.acquire_timeout_reset cfg s now t0 hopen ht]
    have h := Backpressure.strategy_preserves_breaker cfg
      { s with circuit_breaker_opened_at := none, circuit_breaker_failures := 0 }
      now rfl
    exact ⟨h.1, h.2⟩

/-- Witness for the amended C4: (a) a fifth consecutive failure on a state
with 4 failures at time 0 newly opens the breaker at time 0 with the
counter at the threshold; (b) on an open-at-0 state, an `acquire` at time
61 (timeout 60) clears the breaker and zeroes the counter. -/
theorem C4_breaker_transitions_witness :
    ((⟨4, none, 20, 0, [], 0, 0, 10, 1⟩ : Backpressure.State).circuit_breaker_opened_at = none ∧
      ((0 : ℚ) = 0 ∧ false = false ∧
        Backpressure.Config.default.circuit_breaker_threshold ≤
          (Backpressure.record_request Backpressure.Config.default
            ⟨4, none, 20, 0, [], 0, 0, 10, 1⟩ 0 1 false 0).circuit_breaker_failures)) ∧
    ((⟨5, some 0, 20, 0, [], 0, 0, 10, 1⟩ : Backpressure.State).circuit_breaker_opened_at = some 0 ∧
      (61 : ℚ) - 0 > Backpressure.Config.default.circuit_breaker_timeout ∧
      ((Backpressure.acquire Backpressure.Config.default
          ⟨5, some 0, 20, 0, [], 0, 0, 10, 1⟩ 61).2.1).circuit_breaker_opened_at = none ∧
      ((Backpressure.acquire Backpressure.Config.default
          ⟨5, some 0, 20, 0, [], 0, 0, 10, 1⟩ 61).2.1).circuit_breaker_failures = 0) := by
  have hset : (Backpressure.record_request Backpressure.Config.default
      ⟨4, none, 20, 0, [], 0, 0, 10, 1⟩ 0 1 false 0).circuit_breaker_opened_at = some 0 :=
    Backpressure.record_request_fail_opened_at_ge _ _ _ _ _
      (by norm_num [Backpressure.Config.default])
  have ht : (61 : ℚ) - 0 > Backpressure.Config.default.circuit_breaker_timeout := by
    norm_num [Backpressure.Config.default]
  constructor
  · exact ⟨rfl,
      (C4_breaker_transitions Backpressure.Config.default
        ⟨4, none, 20, 0, [], 0, 0, 10, 1⟩ 0 1 0 0 0 false).1 rfl hset⟩
  · refine ⟨rfl, ht, ?_⟩
    exact (C4_breaker_transitions Backpressure.Config.default
      ⟨5, some 0, 20, 0, [], 0, 0, 10, 1⟩ 61 0 0 0 0 true).2 rfl ht

namespace Backpressure

theorem tokenBucketAcquire_grant (cfg : Config) (rate : ℚ) (s : State) (now : ℚ)
    (h : 1 ≤ min cfg.burst_size (s.tokens + (now - s.last_refill) * rate)) :
    (tokenBucketAcquire cfg rate s now).1 = true := by
  unfold tokenBucketAcquire
  dsimp only
  rw [if_pos h]

/-- On a closed breaker with the token-bucket strategy, `acquire` grants as
soon as the refilled bucket holds a whole token. -/
theorem acquire_token_bucket_grant (cfg : Config) (s : State) (now : ℚ)
    (hstrat : cfg.strategy = Strategy.token_bucket)
    (hnone : s.circuit_breaker_opened_at = none)
    (h : 1 ≤ min cfg.burst_size (s.tokens + (now - s.last_refill) * cfg.requests_per_second)) :
    (acquire cfg s now).1 = true := by
  unfold acquire isCircuitOpen
  rw [hnone]
  dsimp only
  rw [if_neg Bool.false_ne_true, hstrat]
  exact tokenBucketAcquire_grant _ _ _ _ h

end Backpressure

/-- A run of consecutive `record_request(duration=d, success=False,
queue_time=q)` calls at the listed times. -/
def recordFailures (cfg : Backpressure.Config) (d q : ℚ)
    (s : Backpressure.State) (ts : List ℚ) : Backpressure.State :=
  ts.foldl (fun s2 t => Backpressure.record_request cfg s2 t d false q) s

theorem recordFailures_failures (cfg : Backpressure.Config) (d q : ℚ)
    (ts : List ℚ) (s : Backpressure.State) :
    (recordFailures cfg d q s ts).circuit_breaker_failures =
      s.circuit_breaker_failures + ts.length := by
  induction ts generalizing s with
  | nil => rfl
  | cons t rest ih =>
      rw [show recordFailures cfg d q s (t :: rest) =
        recordFailures cfg d q (Backpressure.record_request cfg s t d false q) rest
        from rfl]
      rw [ih, Backpressure.record_request_fail_failures, List.length_cons]
      omega

theorem recordFailures_tokens (cfg : Backpressure.Config) (d q : ℚ)
    (ts : List ℚ) (s : Backpressure.State) :
    (recordFailures cfg d q s ts).tokens = s.tokens := by
  induction ts generalizing s with
  | nil => rfl
  | cons t rest ih =>
      rw [show recordFailures cfg d q s (t :: rest) =
        recordFailures cfg d q (Backpressure.record_request cfg s t d false q) rest
        from rfl]
      rw [ih, Backpressure.record_request_tokens]

theorem recordFailures_last_refill (cfg : Backpressure.Config) (d q : ℚ)
    (ts : List ℚ) (s : Backpressure.State) :
    (recordFailures cfg d q s ts).last_refill = s.last_refill := by
  induction ts generalizing s with
  | nil => rfl
  | cons t rest ih =>
      rw [show recordFailures cfg d q s (t :: rest) =
        recordFailures cfg d q (Backpressure.record_request cfg s t d false q) rest
        from rfl]
      rw [ih, Backpressure.record_request_last_refill]

/-- After a non-empty run of failure records whose total count reaches the
threshold, the breaker records the time of the last failure. -/
theorem recordFailures_opened_at (cfg : Backpressure.Config) (d q : ℚ)
    (ts : List ℚ) (s : Backpressure.State) (t : ℚ)
    (hlast : ts.getLast? = some t)
    (hth : cfg.circuit_breaker_threshold ≤ s.circuit_breaker_failures + ts.length) :
    (recordFailures cfg d q s ts).circuit_breaker_opened_at = some t := by
  induction ts generalizing s with
  | nil => simp at hlast
  | cons x rest ih =>
      cases rest with
      | nil =>
          rw [List.getLast?_singleton, Option.some_inj] at hlast
          subst hlast
          apply Backpressure.record_request_fail_opened_at_ge
          simpa using hth
      | cons y rest2 =>
          rw [List.getLast?_cons_cons] at hlast
          rw [show recordFailures cfg d q s (x :: y :: rest2) =
            recordFailures cfg d q (Backpressure.record_request cfg s x d false q)
              (y :: rest2) from rfl]
          apply ih _ hlast
          rw [Backpressure.record_request_fail_failures]
          simp only [List.length_cons] at hth ⊢
          omega

/-- C1: on a token-bucket handler with a clean failure counter, after
`circuit_breaker_threshold` consecutive `record_request(success=False)`
calls (times `ts`, last one `tlast`) with no intervening success:
the next `acquire` within the timeout returns `False`; and an `acquire`
more than `circuit_breaker_timeout` seconds after the last failure, with a
whole token available after refill, returns `True` and leaves the failure
counter at 0. -/
theorem C1_circuit_breaker_opens_and_recloses (cfg : Backpressure.Config)
    (s0 : Backpressure.State) (d q : ℚ) (ts : List ℚ) (tlast t t2 : ℚ)
    (hstrat : cfg.strategy = Backpressure.Strategy.token_bucket)
    (hf0 : s0.circuit_breaker_failures = 0)
    (hlen : ts.length = cfg.circuit_breaker_threshold)
    (hlast : ts.getLast? = some tlast)
    (hwithin : t - tlast ≤ cfg.circuit_breaker_timeout)
    (hafter : t2 - tlast > cfg.circuit_breaker_timeout)
    (htok : 1 ≤ min cfg.burst_size
      (s0.tokens + (t2 - s0.last_refill) * cfg.requests_per_second)) :
    (Backpressure.acquire cfg (recordFailures cfg d q s0 ts) t).1 = false ∧
    (Backpressure.acquire cfg (recordFailures cfg d q s0 ts) t2).1 = true ∧
    ((Backpressure.acquire cfg (recordFailures cfg d q s0 ts) t2).2.1).circuit_breaker_failures
      = 0 := by
  have hopen : (recordFailures cfg d q s0 ts).circuit_breaker_opened_at = some tlast := by
    apply recordFailures_opened_at cfg d q ts s0 tlast hlast
    rw [hf0, hlen]
    omega
  have hreset := Backpressure.acquire_timeout_reset cfg
    (recordFailures cfg d q s0 ts) t2 tlast hopen hafter
  refine ⟨?_, ?_, ?_⟩
  · unfold Backpressure.acquire Backpressure.isCircuitOpen
    rw [hopen]
    dsimp only
    rw [if_neg (not_lt.mpr hwithin)]
    rfl
  · rw [hreset]
    apply Backpressure.acquire_token_bucket_grant cfg _ t2 hstrat rfl
    show 1 ≤ min cfg.burst_size
      ((recordFailures cfg d q s0 ts).tokens +
        (t2 - (recordFailures cfg d q s0 ts).last_refill) * cfg.requests_per_second)
    rw [recordFailures_tokens, recordFailures_last_refill]
    exact htok
  · rw [hreset]
    exact (Backpressure.strategy_preserves_breaker cfg _ t2 rfl).2

/-- Witness for C1: default config (threshold 5, timeout 60, token bucket,
burst 20, rate 10), a fresh handler at time 0, failures recorded at times
1..5, an `acquire` at time 30 (rejected) and one at time 70 (granted,
counter 0). -/
theorem C1_circuit_breaker_opens_and_recloses_witness :
    Backpressure.Config.default.strategy = Backpressure.Strategy.token_bucket ∧
    (Backpressure.State.init Backpressure.Config.default 0).circuit_breaker_failures = 0 ∧
    ([(1 : ℚ), 2, 3, 4, 5].length = Backpressure.Config.default.circuit_breaker_threshold ∧
      [(1 : ℚ), 2, 3, 4, 5].getLast? = some 5) ∧
    ((30 : ℚ) - 5 ≤ Backpressure.Config.default.circuit_breaker_timeout ∧
      (70 : ℚ) - 5 > Backpressure.Config.default.circuit_breaker_timeout) ∧
    (Backpressure.acquire Backpressure.Config.default
      (recordFailures Backpressure.Config.default 1 0
        (Backpressure.State.init Backpressure.Config.default 0) [1, 2, 3, 4, 5]) 30).1 = false ∧
    (Backpressure.acquire Backpressure.Config.default
      (recordFailures Backpressure.Config.default 1 0
        (Backpressure.State.init Backpressure.Config.default 0) [1, 2, 3, 4, 5]) 70).1 = true ∧
    ((Backpressure.acquire Backpressure.Config.default
      (recordFailures Backpressure.Config.default 1 0
        (Backpressure.State.init Backpressure.Config.default 0) [1, 2, 3, 4, 5]) 70).2.1).circuit_breaker_failures = 0 := by
  have h := C1_circuit_breaker_opens_and_recloses Backpressure.Config.default
    (Backpressure.State.init Backpressure.Config.default 0) 1 0 [1, 2, 3, 4, 5] 5 30 70
    rfl rfl rfl rfl
    (by norm_num [Backpressure.Config.default])
    (by norm_num [Backpressure.Config.default])
    (by norm_num [Backpressure.Config.default, Backpressure.State.init])
  exact ⟨rfl, rfl, ⟨rfl, rfl⟩,
    ⟨by norm_num [Backpressure.Config.default], by norm_num [Backpressure.Config.default]⟩,
    h.1, h.2.1, h.2.2⟩

namespace RateLimiter

theorem updateCurrentRate_max_tokens (s : State) (now : ℚ) :
    (updateCurrentRate s now).max_tokens = s.max_tokens := by
  unfold updateCurrentRate
  split <;> rfl

theorem updateCurrentRate_refill_rate (s : State) (now : ℚ) :
    (updateCurrentRate s now).refill_rate = s.refill_rate := by
  unfold updateCurrentRate
  split <;> rfl

theorem updateCurrentRate_last_refill (s : State) (now : ℚ) :
    (updateCurrentRate s now).last_refill = s.last_refill := by
  unfold updateCurrentRate
  split <;> rfl

theorem updateAverageWaitTime_max_tokens (s : State) (w : ℚ) :
    (updateAverageWaitTime s w).max_tokens = s.max_tokens := rfl

theorem updateAverageWaitTime_refill_rate (s : State) (w : ℚ) :
    (updateAverageWaitTime s w).refill_rate = s.refill_rate := rfl

theorem updateAverageWaitTime_last_refill (s : State) (w : ℚ) :
    (updateAverageWaitTime s w).last_refill = s.last_refill := rfl

theorem recordAcquire_max_tokens (s : State) (f w : ℚ) :
    (recordAcquire s f w).max_tokens = s.max_tokens := by
  unfold recordAcquire
  rw [updateAverageWaitTime_max_tokens, updateCurrentRate_max_tokens]

theorem recordAcquire_refill_rate (s : State) (f w : ℚ) :
    (recordAcquire s f w).refill_rate = s.refill_rate := by
  unfold recordAcquire
  rw [updateAverageWaitTime_refill_rate, updateCurrentRate_refill_rate]

theorem consumeToken_max_tokens (s : State) :
    (consumeToken s).max_tokens = s.max_tokens := rfl

theorem consumeToken_refill_rate (s : State) :
    (consumeToken s).refill_rate = s.refill_rate := rfl

theorem refillTokens_tokens (s : State) (now : ℚ) :
    (refillTokens s now).tokens =
      min s.max_tokens (s.tokens + (now - s.last_refill) * s.refill_rate) := rfl

theorem refillTokens_last_refill (s : State) (now : ℚ) :
    (refillTokens s now).last_refill = now := rfl

theorem refillTokens_inv (s : State) (now : ℚ) (h0 : 0 ≤ s.tokens)
    (hrate : 0 ≤ s.refill_rate) (hmax : 0 ≤ s.max_tokens) (ht : s.last_refill ≤ now) :
    0 ≤ (refillTokens s now).tokens ∧ (refillTokens s now).tokens ≤ s.max_tokens := by
  rw [refillTokens_tokens]
  constructor
  · apply le_min hmax
    have hmul : 0 ≤ (now - s.last_refill) * s.refill_rate :=
      mul_nonneg (by linarith) hrate
    linarith
  · exact min_le_left _ _

theorem consumeToken_inv (s : State) (hmax : 0 ≤ s.max_tokens)
    (hub : s.tokens ≤ s.max_tokens) :
    0 ≤ (consumeToken s).tokens ∧ (consumeToken s).tokens ≤ s.max_tokens := by
  rw [consumeToken_tokens]
  exact ⟨le_max_left _ _, max_le hmax (by linarith)⟩

end RateLimiter

/-- The externally callable operations of a `RateLimiter`, tagged with the
monotonic-clock value at which they run. -/
inductive RLOp where
  | acquire (now : ℚ) (timeout : Option ℚ)
  | check (now : ℚ)
deriving Repr

def RLOp.time : RLOp → ℚ
  | .acquire now _ => now
  | .check now => now

/-- The state after one operation (whether `acquire` granted, rejected or
slept, the state it leaves behind is the same shape). -/
def rlStep (s : RateLimiter.State) : RLOp → RateLimiter.State
  | .acquire now timeout =>
      match RateLimiter.acquire s now timeout with
      | Except.ok (_, s2) => s2
      | Except.error (_, s2) => s2
  | .check now => (RateLimiter.checkRate s now).2

def rlRun (s : RateLimiter.State) (ops : List RLOp) : RateLimiter.State :=
  ops.foldl rlStep s

/-- The clock never runs backwards: each operation happens no earlier than
the state's `last_refill` (both `datetime.now()` here is `time.monotonic()`,
which is non-decreasing). -/
def rlTimeOk (s : RateLimiter.State) : List RLOp → Bool
  | [] => true
  | op :: rest => decide (s.last_refill ≤ op.time) && rlTimeOk (rlStep s op) rest

/-- The configuration-derived facts the token-bound invariant needs, plus
the bound itself. -/
def rlStateOk (s : RateLimiter.State) : Prop :=
  0 ≤ s.refill_rate ∧ 0 ≤ s.max_tokens ∧ 0 ≤ s.tokens ∧ s.tokens ≤ s.max_tokens

theorem rlStep_acquire_immediate (s : RateLimiter.State) (now : ℚ)
    (timeout : Option ℚ) (h : 1 ≤ (RateLimiter.refillTokens s now).tokens) :
    rlStep s (RLOp.acquire now timeout) =
      RateLimiter.recordAcquire
        (RateLimiter.consumeToken (RateLimiter.refillTokens s now)) now 0 := by
  unfold rlStep RateLimiter.acquire
  dsimp only
  rw [if_pos h]

theorem rlStep_acquire_reject (s : RateLimiter.State) (now : ℚ)
    (timeout : Option ℚ) (h1 : ¬ 1 ≤ (RateLimiter.refillTokens s now).tokens)
    (h2 : RateLimiter.timeoutExceeded timeout
      ((1 - (RateLimiter.refillTokens s now).tokens) /
        (RateLimiter.refillTokens s now).refill_rate) = true) :
    (rlStep s (RLOp.acquire now timeout)).tokens =
      (RateLimiter.refillTokens s now).tokens ∧
    (rlStep s (RLOp.acquire now timeout)).max_tokens = s.max_tokens ∧
    (rlStep s (RLOp.acquire now timeout)).refill_rate = s.refill_rate := by
  unfold rlStep RateLimiter.acquire
  dsimp only
  rw [if_neg h1, h2]
  exact ⟨rfl, rfl, rfl⟩

/-- Any single rate-limiter operation at a time no earlier than the last
refill preserves `0 ≤ tokens ≤ max_tokens` (and the configuration
fields). -/
theorem rlStep_inv (s : RateLimiter.State) (op : RLOp)
    (hok : rlStateOk s) (ht : s.last_refill ≤ op.time) :
    rlStateOk (rlStep s op) ∧ (rlStep s op).max_tokens = s.max_tokens := by
  obtain ⟨hrate, hmax, h0, hub⟩ := hok
  cases op with
  | check now =>
      have h := RateLimiter.refillTokens_inv s now h0 hrate hmax ht
      exact ⟨⟨hrate, hmax, h.1, h.2⟩, rfl⟩
  | acquire now timeout =>
      have hr := RateLimiter.refillTokens_inv s now h0 hrate hmax ht
      by_cases h1 : 1 ≤ (RateLimiter.refillTokens s now).tokens
      · rw [rlStep_acquire_immediate s now timeout h1]
        have hc := RateLimiter.consumeToken_inv (RateLimiter.refillTokens s now)
          (by rw [RateLimiter.refillTokens_max_tokens]; exact hmax)
          (by rw [RateLimiter.refillTokens_max_tokens]; exact hr.2)
        rw [RateLimiter.refillTokens_max_tokens] at hc
        unfold rlStateOk
        simp only [RateLimiter.recordAcquire_refill_rate,
          RateLimiter.recordAcquire_max_tokens, RateLimiter.recordAcquire_tokens,
          RateLimiter.consumeToken_refill_rate, RateLimiter.consumeToken_max_tokens,
          RateLimiter.refillTokens_refill_rate, RateLimiter.refillTokens_max_tokens]
        exact ⟨⟨hrate, hmax, hc.1, hc.2⟩, trivial⟩
      · by_cases h2 : RateLimiter.timeoutExceeded timeout
          ((1 - (RateLimiter.refillTokens s now).tokens) /
            (RateLimiter.refillTokens s now).refill_rate) = true
        · obtain ⟨he1, he2, he3⟩ := rlStep_acquire_reject s now timeout h1 h2
          unfold rlStateOk
          rw [he1, he2, he3]
          exact ⟨⟨hrate, hmax, hr.1, hr.2⟩, rfl⟩
        · have h2f : RateLimiter.timeoutExceeded timeout
              ((1 - (RateLimiter.refillTokens s now).tokens) /
                (RateLimiter.refillTokens s now).refill_rate) = false := by
            cases hb : RateLimiter.timeoutExceeded timeout
              ((1 - (RateLimiter.refillTokens s now).tokens) /
                (RateLimiter.refillTokens s now).refill_rate)
            · rfl
            · exact absurd hb h2
          unfold rlStateOk rlStep RateLimiter.acquire
          dsimp only
          rw [if_neg h1, h2f]
          simp only [Bool.false_eq_true, if_false]
          simp only [RateLimiter.recordAcquire_refill_rate,
            RateLimiter.recordAcquire_max_tokens, RateLimiter.recordAcquire_tokens,
            RateLimiter.consumeToken_refill_rate, RateLimiter.consumeToken_max_tokens,
            RateLimiter.consumeToken_tokens, RateLimiter.refillTokens_refill_rate,
            RateLimiter.refillTokens_max_tokens, RateLimiter.refillTokens_tokens]
          rw [RateLimiter.refillTokens_last_refill]
          refine ⟨⟨hrate, hmax, le_max_left _ _, ?_⟩, trivial⟩
          apply max_le hmax
          linarith [min_le_left s.max_tokens
            (min s.max_tokens (s.tokens + (now - s.last_refill) * s.refill_rate) +
              (now + (1 - min s.max_tokens
                  (s.tokens + (now - s.last_refill) * s.refill_rate)) / s.refill_rate
                - now) * s.refill_rate)]

/-- Running any admissible operation sequence from a well-formed state keeps
`0 ≤ tokens ≤ max_tokens`, and `max_tokens` itself never changes. -/
theorem rlRun_inv (ops : List RLOp) (s : RateLimiter.State)
    (hok : rlStateOk s) (htime : rlTimeOk s ops = true) :
    rlStateOk (rlRun s ops) ∧ (rlRun s ops).max_tokens = s.max_tokens := by
  induction ops generalizing s with
  | nil => exact ⟨hok, rfl⟩
  | cons op rest ih =>
      rw [show rlTimeOk s (op :: rest) =
        (decide (s.last_refill ≤ op.time) && rlTimeOk (rlStep s op) rest) from rfl,
        Bool.and_eq_true, decide_eq_true_eq] at htime
      have hstep := rlStep_inv s op hok htime.1
      have htail := ih (rlStep s op) hstep.1 htime.2
      exact ⟨htail.1, htail.2.trans hstep.2⟩

namespace Backpressure

theorem isCircuitOpen_tokens (cfg : Config) (s : State) (now : ℚ) :
    ((isCircuitOpen cfg s now).2).tokens = s.tokens := by
  unfold isCircuitOpen
  split
  · rfl
  · split <;> rfl

theorem isCircuitOpen_last_refill (cfg : Config) (s : State) (now : ℚ) :
    ((isCircuitOpen cfg s now).2).last_refill = s.last_refill := by
  unfold isCircuitOpen
  split
  · rfl
  · split <;> rfl

theorem isCircuitOpen_adaptive_rate (cfg : Config) (s : State) (now : ℚ) :
    ((isCircuitOpen cfg s now).2).adaptive_rate = s.adaptive_rate := by
  unfold isCircuitOpen
  split
  · rfl
  · split <;> rfl

theorem isCircuitOpen_average (cfg : Config) (s : State) (now : ℚ) :
    ((isCircuitOpen cfg s now).2).average_response_time = s.average_response_time := by
  unfold isCircuitOpen
  split
  · rfl
  · split <;> rfl

theorem isCircuitOpen_target (cfg : Config) (s : State) (now : ℚ) :
    ((isCircuitOpen cfg s now).2).target_response_time = s.target_response_time := by
  unfold isCircuitOpen
  split
  · rfl
  · split <;> rfl

theorem tokenBucketAcquire_adaptive_rate (cfg : Config) (rate : ℚ) (s : State) (now : ℚ) :
    ((tokenBucketAcquire cfg rate s now).2.1).adaptive_rate = s.adaptive_rate := by
  unfold tokenBucketAcquire
  dsimp only
  split
  · rfl
  · split <;> rfl

/-- The token bucket of the backpressure handler keeps
`0 ≤ tokens ≤ burst_size` whatever the grant decision is. -/
theorem tokenBucketAcquire_inv (cfg : Config) (rate : ℚ) (s : State) (now : ℚ)
    (hb : 0 ≤ cfg.burst_size) (hrate : 0 ≤ rate) (h0 : 0 ≤ s.tokens)
    (ht : s.last_refill ≤ now) :
    0 ≤ ((tokenBucketAcquire cfg rate s now).2.1).tokens ∧
    ((tokenBucketAcquire cfg rate s now).2.1).tokens ≤ cfg.burst_size := by
  unfold tokenBucketAcquire
  dsimp only
  have hmul : 0 ≤ (now - s.last_refill) * rate := mul_nonneg (by linarith) hrate
  by_cases h1 : 1 ≤ min cfg.burst_size (s.tokens + (now - s.last_refill) * rate)
  · rw [if_pos h1]
    dsimp only
    constructor
    · linarith
    · linarith [min_le_left cfg.burst_size (s.tokens + (now - s.last_refill) * rate)]
  · rw [if_neg h1]
    by_cases h2 : (1 - min cfg.burst_size (s.tokens + (now - s.last_refill) * rate))
        / rate < 1/10
    · rw [if_pos h2]
      exact ⟨le_refl 0, hb⟩
    · rw [if_neg h2]
      dsimp only
      constructor
      · exact le_min hb (by linarith)
      · exact min_le_left _ _

/-- The adaptive strategy keeps the token bound and a non-negative adapted
rate. -/
theorem adaptiveAcquire_inv (cfg : Config) (s : State) (now : ℚ)
    (hrps : 0 ≤ cfg.requests_per_second) (hb : 0 ≤ cfg.burst_size)
    (h0 : 0 ≤ s.tokens) (had : 0 ≤ s.adaptive_rate) (ht : s.last_refill ≤ now) :
    (0 ≤ ((adaptiveAcquire cfg s now).2.1).tokens ∧
      ((adaptiveAcquire cfg s now).2.1).tokens ≤ cfg.burst_size) ∧
    0 ≤ ((adaptiveAcquire cfg s now).2.1).adaptive_rate := by
  unfold adaptiveAcquire
  dsimp only
  split
  · have hr : (0:ℚ) ≤ max 1 (s.adaptive_rate * (9/10)) :=
      le_trans zero_le_one (le_max_left _ _)
    constructor
    · exact tokenBucketAcquire_inv cfg _ _ now hb hr h0 ht
    · rw [tokenBucketAcquire_adaptive_rate]
      exact hr
  · split
    · have hr : (0:ℚ) ≤ min (cfg.requests_per_second * 2) (s.adaptive_rate * (11/10)) :=
        le_min (by linarith) (mul_nonneg had (by norm_num))
      constructor
      · exact tokenBucketAcquire_inv cfg _ _ now hb hr h0 ht
      · rw [tokenBucketAcquire_adaptive_rate]
        exact hr
    · constructor
      · exact tokenBucketAcquire_inv cfg _ _ now hb had h0 ht
      · rw [tokenBucketAcquire_adaptive_rate]
        exact had

end Backpressure

/-- The externally callable operations of a `BackpressureHandler`, tagged
with the wall-clock value at which they run. -/
inductive BPOp where
  | acquire (now : ℚ)
  | record (now d : ℚ) (success : Bool) (q : ℚ)
deriving Repr

def BPOp.time : BPOp → ℚ
  | .acquire now => now
  | .record now _ _ _ => now

def bpStep (cfg : Backpressure.Config) (s : Backpressure.State) : BPOp → Backpressure.State
  | .acquire now => (Backpressure.acquire cfg s now).2.1
  | .record now d b q => Backpressure.record_request cfg s now d b q

def bpRun (cfg : Backpressure.Config) (s : Backpressure.State) (ops : List BPOp) :
    Backpressure.State :=
  ops.foldl (bpStep cfg) s

/-- The wall clock never runs backwards across the operations. -/
def bpTimeOk (cfg : Backpressure.Config) (s : Backpressure.State) : List BPOp → Bool
  | [] => true
  | op :: rest =>
      decide (s.last_refill ≤ op.time) && bpTimeOk cfg (bpStep cfg s op) rest

/-- The token-bucket bound of the handler plus the rate fact it needs. -/
def bpStateOk (cfg : Backpressure.Config) (s : Backpressure.State) : Prop :=
  0 ≤ s.tokens ∧ s.tokens ≤ cfg.burst_size ∧ 0 ≤ s.adaptive_rate

theorem bpStep_inv (cfg : Backpressure.Config) (s : Backpressure.State) (op : BPOp)
    (hrps : 0 ≤ cfg.requests_per_second) (hb : 0 ≤ cfg.burst_size)
    (hok : bpStateOk cfg s) (ht : s.last_refill ≤ op.time) :
    bpStateOk cfg (bpStep cfg s op) := by
  obtain ⟨h0, hub, had⟩ := hok
  cases op with
  | record now d b q =>
      unfold bpStateOk bpStep
      rw [Backpressure.record_request_tokens, Backpressure.record_request_adaptive_rate]
      exact ⟨h0, hub, had⟩
  | acquire now =>
      unfold bpStateOk bpStep Backpressure.acquire
      dsimp only
      have hct : ((Backpressure.isCircuitOpen cfg s now).2).tokens = s.tokens :=
        Backpressure.isCircuitOpen_tokens cfg s now
      have hcl : ((Backpressure.isCircuitOpen cfg s now).2).last_refill = s.last_refill :=
        Backpressure.isCircuitOpen_last_refill cfg s now
      have hca : ((Backpressure.isCircuitOpen cfg s now).2).adaptive_rate = s.adaptive_rate :=
        Backpressure.isCircuitOpen_adaptive_rate cfg s now
      by_cases hco : (Backpressure.isCircuitOpen cfg s now).1 = true
      · rw [if_pos hco]
        dsimp only
        rw [hct, hca]
        exact ⟨h0, hub, had⟩
      · rw [if_neg hco]
        have hbase : 0 ≤ ((Backpressure.isCircuitOpen cfg s now).2).tokens := by
          rw [hct]; exact h0
        have hbt : ((Backpressure.isCircuitOpen cfg s now).2).last_refill ≤ now := by
          rw [hcl]; exact ht
        cases hstrat : cfg.strategy with
        | token_bucket =>
            have h := Backpressure.tokenBucketAcquire_inv cfg cfg.requests_per_second
              ((Backpressure.isCircuitOpen cfg s now).2) now hb hrps hbase hbt
            rw [Backpressure.tokenBucketAcquire_adaptive_rate, hca]
            exact ⟨h.1, h.2, had⟩
        | fixed_window =>
            have h := Backpressure.tokenBucketAcquire_inv cfg cfg.requests_per_second
              ((Backpressure.isCircuitOpen cfg s now).2) now hb hrps hbase hbt
            rw [Backpressure.tokenBucketAcquire_adaptive_rate, hca]
            exact ⟨h.1, h.2, had⟩
        | sliding_window =>
            rw [Backpressure.slidingWindowAcquire_state, hct, hca]
            exact ⟨h0, hub, had⟩
        | adaptive =>
            have h := Backpressure.adaptiveAcquire_inv cfg
              ((Backpressure.isCircuitOpen cfg s now).2) now hrps hb hbase
              (by rw [hca]; exact had) hbt
            exact ⟨h.1.1, h.1.2, h.2⟩

theorem bpRun_inv (cfg : Backpressure.Config) (ops : List BPOp)
    (s : Backpressure.State)
    (hrps : 0 ≤ cfg.requests_per_second) (hb : 0 ≤ cfg.burst_size)
    (hok : bpStateOk cfg s) (htime : bpTimeOk cfg s ops = true) :
    bpStateOk cfg (bpRun cfg s ops) := by
  induction ops generalizing s with
  | nil => exact hok
  | cons op rest ih =>
      rw [show bpTimeOk cfg s (op :: rest) =
        (decide (s.last_refill ≤ op.time) && bpTimeOk cfg (bpStep cfg s op) rest)
        from rfl, Bool.and_eq_true, decide_eq_true_eq] at htime
      exact ih (bpStep cfg s op) (bpStep_inv cfg s op hrps hb ⟨hok.1, hok.2.1, hok.2.2⟩ htime.1)
        htime.2

/-- C2: over every admissible sequence of acquire/check operations on a
`RateLimiter`, and every admissible sequence of acquire/record operations on
a `BackpressureHandler` (any strategy), the token count stays within
`[0, max_tokens]` respectively `[0, burst_size]` at every observation point
(the run of every operation prefix). -/
theorem C2_token_bounds :
    (∀ (s : RateLimiter.State) (ops : List RLOp),
      rlStateOk s → rlTimeOk s ops = true →
      0 ≤ (rlRun s ops).tokens ∧ (rlRun s ops).tokens ≤ s.max_tokens) ∧
    (∀ (cfg : Backpressure.Config) (s : Backpressure.State) (ops : List BPOp),
      0 ≤ cfg.requests_per_second → 0 ≤ cfg.burst_size →
      bpStateOk cfg s → bpTimeOk cfg s ops = true →
      0 ≤ (bpRun cfg s ops).tokens ∧ (bpRun cfg s ops).tokens ≤ cfg.burst_size) := by
  constructor
  · intro s ops hok htime
    have h := rlRun_inv ops s hok htime
    refine ⟨h.1.2.2.1, ?_⟩
    rw [← h.2]
    exact h.1.2.2.2
  · intro cfg s ops h1 h2 hok ht
    have h := bpRun_inv cfg ops s h1 h2 hok ht
    exact ⟨h.1, h.2.1⟩

/-- Witness for C2: a fresh default rate limiter running one acquire at
time 1, and a fresh default backpressure handler running one acquire at
time 1. -/
theorem C2_token_bounds_witness :
    (rlStateOk (RateLimiter.State.init RateLimiter.RateLimitConfig.default 0) ∧
      rlTimeOk (RateLimiter.State.init RateLimiter.RateLimitConfig.default 0)
        [RLOp.acquire 1 none] = true ∧
      0 ≤ (rlRun (RateLimiter.State.init RateLimiter.RateLimitConfig.default 0)
        [RLOp.acquire 1 none]).tokens ∧
      (rlRun (RateLimiter.State.init RateLimiter.RateLimitConfig.default 0)
        [RLOp.acquire 1 none]).tokens ≤
        (RateLimiter.State.init RateLimiter.RateLimitConfig.default 0).max_tokens) ∧
    (bpStateOk Backpressure.Config.default
        (Backpressure.State.init Backpressure.Config.default 0) ∧
      bpTimeOk Backpressure.Config.default
        (Backpressure.State.init Backpressure.Config.default 0) [BPOp.acquire 1] = true ∧
      0 ≤ (bpRun Backpressure.Config.default
        (Backpressure.State.init Backpressure.Config.default 0) [BPOp.acquire 1]).tokens ∧
      (bpRun Backpressure.Config.default
        (Backpressure.State.init Backpressure.Config.default 0) [BPOp.acquire 1]).tokens ≤
        Backpressure.Config.default.burst_size) := by
  have hok : rlStateOk (RateLimiter.State.init RateLimiter.RateLimitConfig.default 0) := by
    norm_num [rlStateOk, RateLimiter.State.init, RateLimiter.RateLimitConfig.default]
  have htime : rlTimeOk (RateLimiter.State.init RateLimiter.RateLimitConfig.default 0)
      [RLOp.acquire 1 none] = true := by
    norm_num [rlTimeOk, RLOp.time, RateLimiter.State.init,
      RateLimiter.RateLimitConfig.default]
  have hok2 : bpStateOk Backpressure.Config.default
      (Backpressure.State.init Backpressure.Config.default 0) := by
    norm_num [bpStateOk, Backpressure.State.init, Backpressure.Config.default]
  have htime2 : bpTimeOk Backpressure.Config.default
      (Backpressure.State.init Backpressure.Config.default 0) [BPOp.acquire 1] = true := by
    norm_num [bpTimeOk, BPOp.time, Backpressure.State.init, Backpressure.Config.default]
  have h1 := C2_token_bounds.1 _ _ hok htime
  have h2 := C2_token_bounds.2 Backpressure.Config.default _ _
    (by norm_num [Backpressure.Config.default])
    (by norm_num [Backpressure.Config.default]) hok2 htime2
  exact ⟨⟨hok, htime, h1.1, h1.2⟩, hok2, htime2, h2.1, h2.2⟩

theorem find?_map_replace {α : Type} (m : List (String × α)) (k : String) (v : α)
    (hmem : m.any (fun p => p.1 = k) = true) :
    (m.map (fun p => if p.1 = k then (k, v) else p)).find? (fun p => p.1 = k) =
      some (k, v) := by
  induction m with
  | nil => simp at hmem
  | cons p rest ih =>
      by_cases hp : p.1 = k
      · simp [List.find?_cons, hp]
      · have hrest : rest.any (fun q => q.1 = k) = true := by
          simpa [List.any_cons, hp] using hmem
        simp only [List.map_cons, List.find?_cons, if_neg hp]
        rw [show (decide (p.1 = k)) = false from decide_eq_false hp]
        exact ih hrest

theorem dictLookup_dictInsert_self {α : Type} (m : List (String × α)) (k : String) (v : α) :
    dictLookup (dictInsert m k v) k = some v := by
  unfold dictInsert dictLookup
  split
  case isTrue h =>
    rw [find?_map_replace m k v h]
    rfl
  case isFalse h =>
    rw [List.find?_append]
    have hnone : m.find? (fun p => p.1 = k) = none := by
      rw [List.find?_eq_none]
      intro x hx
      simp only [Bool.not_eq_true]
      apply decide_eq_false
      intro hxk
      apply h
      rw [List.any_eq_true]
      exact ⟨x, hx, by simpa using hxk⟩
    rw [hnone]
    simp [List.find?]

theorem dictMem_dictInsert_self {α : Type} (m : List (String × α)) (k : String) (v : α) :
    dictMem (dictInsert m k v) k = true := by
  unfold dictMem dictInsert
  split
  case isTrue h =>
    rw [List.any_eq_true] at h ⊢
    obtain ⟨p, hp, hpk⟩ := h
    refine ⟨(k, v), ?_, by simp⟩
    rw [List.mem_map]
    exact ⟨p, hp, by simp [of_decide_eq_true hpk]⟩
  case isFalse h =>
    simp [List.any_append]

namespace Scanner

/-- A `scan_symbol` call that misses the cache and whose scan completes with
a non-empty (truthy) result list: the scan runs once, the result is cached
under the key with the current timestamp, and the metrics count one
successful scan. -/
theorem scan_symbol_miss_nonempty (ttl : ℤ) (key : String) (r : List Spread)
    (s : CoordState) (now : ℚ)
    (hmiss : dictMem s.scan_cache key = false) (hre : r.isEmpty = false) :
    scan_symbol ttl key (Except.ok r) s true now =
      (Except.ok r,
       { s with total_scans := s.total_scans + 1,
                successful_scans := s.successful_scans + 1,
                scan_cache := dictInsert s.scan_cache key r,
                cache_timestamps := dictInsert s.cache_timestamps key now }, 1) := by
  unfold scan_symbol
  dsimp only
  rw [if_pos rfl, if_neg (by rw [hmiss]; exact Bool.false_ne_true)]
  dsimp only
  rw [if_neg (by rw [hre]; exact Bool.false_ne_true)]

/-- A `scan_symbol` call that finds a cached entry whose timedelta `seconds`
component is below the TTL: the entry is returned, the cache-hit counter is
bumped, and no scan runs. -/
theorem scan_symbol_hit (ttl : ℤ) (key : String)
    (scanResult : Except String (List Spread)) (s : CoordState) (now ts : ℚ)
    (v : List Spread)
    (hmem : dictMem s.scan_cache key = true)
    (hts : dictLookup s.cache_timestamps key = some ts)
    (hv : dictLookup s.scan_cache key = some v)
    (hfresh : timedeltaSeconds (now - ts) < ttl) :
    scan_symbol ttl key scanResult s true now =
      (Except.ok v, { s with cache_hits := s.cache_hits + 1 }, 0) := by
  unfold scan_symbol
  dsimp only
  rw [if_pos rfl, if_pos hmem, hts, hv]
  dsimp only
  rw [if_pos hfresh]

end Scanner

/-- C5 counterexample: with an external scan that (deterministically)
returns the empty spread list, two `scan_symbol` calls within the TTL
window each invoke the scan (third component 1 both times, so two
invocations across the two calls) and `cache_hits` stays 0 — because a
completed job with a falsy (empty) result list is never cached.  This
contradicts the claim read over every symbol/filter list. -/
theorem C5_counterexample :
    Scanner.scan_symbol 300 "AAPL" (Except.ok []) Scanner.CoordState.init true 0 =
      (Except.ok [], ⟨[], [], 0, 1, 1, 0⟩, 1) ∧
    Scanner.scan_symbol 300 "AAPL" (Except.ok []) ⟨[], [], 0, 1, 1, 0⟩ true 10 =
      (Except.ok [], ⟨[], [], 0, 2, 2, 0⟩, 1) ∧
    ((0:ℚ) ≤ 10 - 0 ∧ ((10:ℚ) - 0) < 300) := by
  refine ⟨?_, ?_, by norm_num⟩ <;>
    norm_num [Scanner.scan_symbol, Scanner.CoordState.init, dictMem]

/-- C5 (amended): for a symbol/filter pair not yet cached whose scan result
is NON-EMPTY, two `scan_symbol(use_cache=True)` calls within the TTL window
(age under one day) with no intervening data mutation return equal results,
run the underlying scan exactly once across the two calls (1 then 0), and
increment `cache_hits` by exactly 1 on the second call.  (An empty scan
result is falsy and never cached, so the restriction to non-empty results
is forced — see the counterexample.) -/
theorem C5_cache_idempotence (ttl : ℤ) (key : String) (r : List Scanner.Spread)
    (s0 : Scanner.CoordState) (t1 t2 : ℚ)
    (hmiss : dictMem s0.scan_cache key = false) (hr : r ≠ [])
    (h1 : 0 ≤ t2 - t1) (h2 : t2 - t1 < (ttl : ℚ)) (h3 : ttl ≤ 86400) :
    ∃ s1, Scanner.scan_symbol ttl key (Except.ok r) s0 true t1 = (Except.ok r, s1, 1) ∧
      Scanner.scan_symbol ttl key (Except.ok r) s1 true t2 =
        (Except.ok r, { s1 with cache_hits := s1.cache_hits + 1 }, 0) ∧
      s1.cache_hits = s0.cache_hits := by
  have hre : r.isEmpty = false := by
    cases r with
    | nil => exact absurd rfl hr
    | cons a l => rfl
  refine ⟨_, Scanner.scan_symbol_miss_nonempty ttl key r s0 t1 hmiss hre, ?_, rfl⟩
  apply Scanner.scan_symbol_hit
  · exact dictMem_dictInsert_self _ _ _
  · exact dictLookup_dictInsert_self _ _ _
  · exact dictLookup_dictInsert_self _ _ _
  · unfold timedeltaSeconds
    have hf0 : 0 ≤ ⌊t2 - t1⌋ := Int.floor_nonneg.mpr h1
    have hfl : ⌊t2 - t1⌋ < ttl := by
      rw [Int.floor_lt]
      exact h2
    rw [Int.emod_eq_of_lt hf0 (lt_of_lt_of_le hfl h3)]
    exact hfl

/-- Witness for the amended C5: an empty initial cache, scan result `[7]`,
first call at time 0, second at time 10, TTL 300. -/
theorem C5_cache_idempotence_witness :
    dictMem Scanner.CoordState.init.scan_cache "AAPL" = false ∧
    ([7] : List Scanner.Spread) ≠ [] ∧
    ∃ s1, Scanner.scan_symbol 300 "AAPL" (Except.ok [7]) Scanner.CoordState.init true 0 =
        (Except.ok [7], s1, 1) ∧
      Scanner.scan_symbol 300 "AAPL" (Except.ok [7]) s1 true 10 =
        (Except.ok [7], { s1 with cache_hits := s1.cache_hits + 1 }, 0) ∧
      s1.cache_hits = Scanner.CoordState.init.cache_hits := by
  refine ⟨rfl, by simp, ?_⟩
  exact C5_cache_idempotence 300 "AAPL" [7] Scanner.CoordState.init 0 10 rfl
    (by simp) (by norm_num) (by norm_num) (by norm_num)

namespace Backpressure

/-- One `acquire` step never raises `adaptive_rate` above twice the
configured base rate (the cap of the adaptive adjustment), whatever the
strategy. -/
theorem acquire_adaptive_rate_bounded (cfg : Config) (s : State) (now : ℚ)
    (hb : (1:ℚ) ≤ cfg.requests_per_second * 2)
    (h : s.adaptive_rate ≤ cfg.requests_per_second * 2) :
    ((acquire cfg s now).2.1).adaptive_rate ≤ cfg.requests_per_second * 2 := by
  unfold acquire
  dsimp only
  have hca := isCircuitOpen_adaptive_rate cfg s now
  by_cases hco : (isCircuitOpen cfg s now).1 = true
  · rw [if_pos hco]
    dsimp only
    rw [hca]
    exact h
  · rw [if_neg hco]
    cases cfg.strategy with
    | token_bucket =>
        rw [tokenBucketAcquire_adaptive_rate, hca]
        exact h
    | fixed_window =>
        rw [tokenBucketAcquire_adaptive_rate, hca]
        exact h
    | sliding_window =>
        rw [slidingWindowAcquire_state, hca]
        exact h
    | adaptive =>
        unfold adaptiveAcquire
        dsimp only
        by_cases hgt : (isCircuitOpen cfg s now).2.average_response_time >
            (isCircuitOpen cfg s now).2.target_response_time * (3/2)
        · rw [if_pos hgt, tokenBucketAcquire_adaptive_rate]
          dsimp only
          rw [hca]
          apply max_le hb
          linarith
        · rw [if_neg hgt]
          by_cases hlt : (isCircuitOpen cfg s now).2.average_response_time <
              (isCircuitOpen cfg s now).2.target_response_time * (1/2)
          · rw [if_pos hlt, tokenBucketAcquire_adaptive_rate]
            dsimp only
            exact min_le_left _ _
          · rw [if_neg hlt, tokenBucketAcquire_adaptive_rate, hca]
            exact h

end Backpressure

/-- The C7 scenario configuration: a fresh adaptive-strategy handler with
base rate 10 req/s (adaptive cap 20) and target response time 1 s. -/
def c7cfg : Backpressure.Config :=
  { strategy := Backpressure.Strategy.adaptive
    requests_per_second := 10
    burst_size := 20
    circuit_breaker_threshold := 5
    circuit_breaker_timeout := 60 }

/-- Five `record_request(duration=2.0, success=True)` calls at time 0 on a
fresh handler. -/
def c7slow : Backpressure.State :=
  Backpressure.record_request c7cfg
    (Backpressure.record_request c7cfg
      (Backpressure.record_request c7cfg
        (Backpressure.record_request c7cfg
          (Backpressure.record_request c7cfg
            (Backpressure.State.init c7cfg 0) 0 2 true 0) 0 2 true 0)
        0 2 true 0) 0 2 true 0) 0 2 true 0

theorem c7slow_eval : c7slow =
    ⟨0, none, 20, 0,
      [⟨0, 2, true, 0⟩, ⟨0, 2, true, 0⟩, ⟨0, 2, true, 0⟩, ⟨0, 2, true, 0⟩,
        ⟨0, 2, true, 0⟩], 5, 2, 10, 1⟩ := by
  have h1 : Backpressure.record_request c7cfg
      (Backpressure.State.init c7cfg 0) 0 2 true 0 =
      ⟨0, none, 20, 0, [⟨0, 2, true, 0⟩], 1, 2, 10, 1⟩ := by
    norm_num [Backpressure.record_request, Backpressure.updateMetrics,
      Backpressure.oldestTimestamp, dequeAppend, Backpressure.State.init, c7cfg]
  have h2 : Backpressure.record_request c7cfg
      (⟨0, none, 20, 0, [⟨0, 2, true, 0⟩], 1, 2, 10, 1⟩) 0 2 true 0 =
      ⟨0, none, 20, 0, [⟨0, 2, true, 0⟩, ⟨0, 2, true, 0⟩], 2, 2, 10, 1⟩ := by
    norm_num [Backpressure.record_request, Backpressure.updateMetrics,
      Backpressure.oldestTimestamp, dequeAppend, Backpressure.State.init, c7cfg]
  have h3 : Backpressure.record_request c7cfg
      (⟨0, none, 20, 0, [⟨0, 2, true, 0⟩, ⟨0, 2, true, 0⟩], 2, 2, 10, 1⟩) 0 2 true 0 =
      ⟨0, none, 20, 0, [⟨0, 2, true, 0⟩, ⟨0, 2, true, 0⟩, ⟨0, 2, true, 0⟩], 3, 2, 10, 1⟩ := by
    norm_num [Backpressure.record_request, Backpressure.updateMetrics,
      Backpressure.oldestTimestamp, dequeAppend, Backpressure.State.init, c7cfg]
  have h4 : Backpressure.record_request c7cfg
      (⟨0, none, 20, 0, [⟨0, 2, true, 0⟩, ⟨0, 2, true, 0⟩, ⟨0, 2, true, 0⟩], 3, 2, 10, 1⟩) 0 2 true 0 =
      ⟨0, none, 20, 0, [⟨0, 2, true, 0⟩, ⟨0, 2, true, 0⟩, ⟨0, 2, true, 0⟩, ⟨0, 2, true, 0⟩], 4, 2, 10, 1⟩ := by
    norm_num [Backpressure.record_request, Backpressure.updateMetrics,
      Backpressure.oldestTimestamp, dequeAppend, Backpressure.State.init, c7cfg]
  have h5 : Backpressure.record_request c7cfg
      (⟨0, none, 20, 0, [⟨0, 2, true, 0⟩, ⟨0, 2, true, 0⟩, ⟨0, 2, true, 0⟩, ⟨0, 2, true, 0⟩], 4, 2, 10, 1⟩) 0 2 true 0 =
      ⟨0, none, 20, 0, [⟨0, 2, true, 0⟩, ⟨0, 2, true, 0⟩, ⟨0, 2, true, 0⟩, ⟨0, 2, true, 0⟩, ⟨0, 2, true, 0⟩], 5, 2, 10, 1⟩ := by
    norm_num [Backpressure.record_request, Backpressure.updateMetrics,
      Backpressure.oldestTimestamp, dequeAppend, Backpressure.State.init, c7cfg]
  rw [c7slow, h1, h2, h3, h4, h5]

/-- Ten `record_request(duration=0.1, success=True)` calls at time 0 on a
fresh handler. -/
def c7fast : Backpressure.State :=
  Backpressure.record_request c7cfg (Backpressure.record_request c7cfg (Backpressure.record_request c7cfg (Backpressure.record_request c7cfg (Backpressure.record_request c7cfg (Backpressure.record_request c7cfg (Backpressure.record_request c7cfg (Backpressure.record_request c7cfg (Backpressure.record_request c7cfg (Backpressure.record_request c7cfg (Backpressure.State.init c7cfg 0) 0 (1/10) true 0) 0 (1/10) true 0) 0 (1/10) true 0) 0 (1/10) true 0) 0 (1/10) true 0) 0 (1/10) true 0) 0 (1/10) true 0) 0 (1/10) true 0) 0 (1/10) true 0) 0 (1/10) true 0

theorem c7fast_eval : c7fast =
    ⟨0, none, 20, 0, [⟨0, 1/10, true, 0⟩, ⟨0, 1/10, true, 0⟩, ⟨0, 1/10, true, 0⟩, ⟨0, 1/10, true, 0⟩, ⟨0, 1/10, true, 0⟩, ⟨0, 1/10, true, 0⟩, ⟨0, 1/10, true, 0⟩, ⟨0, 1/10, true, 0⟩, ⟨0, 1/10, true, 0⟩, ⟨0, 1/10, true, 0⟩], 10, 1/10, 10, 1⟩ := by
  have h1 : Backpressure.record_request c7cfg
      (Backpressure.State.init c7cfg 0) 0 (1/10) true 0 =
      ⟨0, none, 20, 0, [⟨0, 1/10, true, 0⟩], 1, 1/10, 10, 1⟩ := by
    norm_num [Backpressure.record_request, Backpressure.updateMetrics,
      Backpressure.oldestTimestamp, dequeAppend, Backpressure.State.init, c7cfg]
  have h2 : Backpressure.record_request c7cfg
      (⟨0, none, 20, 0, [⟨0, 1/10, true, 0⟩], 1, 1/10, 10, 1⟩) 0 (1/10) true 0 =
      ⟨0, none, 20, 0, [⟨0, 1/10, true, 0⟩, ⟨0, 1/10, true, 0⟩], 2, 1/10, 10, 1⟩ := by
    norm_num [Backpressure.record_request, Backpressure.updateMetrics,
      Backpressure.oldestTimestamp, dequeAppend, Backpressure.State.init, c7cfg]
  have h3 : Backpressure.record_request c7cfg
      (⟨0, none, 20, 0, [⟨0, 1/10, true, 0⟩, ⟨0, 1/10, true, 0⟩], 2, 1/10, 10, 1⟩) 0 (1/10) true 0 =
      ⟨0, none, 20, 0, [⟨0, 1/10, true, 0⟩, ⟨0, 1/10, true, 0⟩, ⟨0, 1/10, true, 0⟩], 3, 1/10, 10, 1⟩ := by
    norm_num [Backpressure.record_request, Backpressure.updateMetrics,
      Backpressure.oldestTimestamp, dequeAppend, Backpressure.State.init, c7cfg]
  have h4 : Backpressure.record_request c7cfg
      (⟨0, none, 20, 0, [⟨0, 1/10, true, 0⟩, ⟨0, 1/10, true, 0⟩, ⟨0, 1/10, true, 0⟩], 3, 1/10, 10, 1⟩) 0 (1/10) true 0 =
      ⟨0, none, 20, 0, [⟨0, 1/10, true, 0⟩, ⟨0, 1/10, true, 0⟩, ⟨0, 1/10, true, 0⟩, ⟨0, 1/10, true, 0⟩], 4, 1/10, 10, 1⟩ := by
    norm_num [Backpressure.record_request, Backpressure.updateMetrics,
      Backpressure.oldestTimestamp, dequeAppend, Backpressure.State.init, c7cfg]
  have h5 : Backpressure.record_request c7cfg
      (⟨0, none, 20, 0, [⟨0, 1/10, true, 0⟩, ⟨0, 1/10, true, 0⟩, ⟨0, 1/10, true, 0⟩, ⟨0, 1/10, true, 0⟩], 4, 1/10, 10, 1⟩) 0 (1/10) true 0 =
      ⟨0, none, 20, 0, [⟨0, 1/10, true, 0⟩, ⟨0, 1/10, true, 0⟩, ⟨0, 1/10, true, 0⟩, ⟨0, 1/10, true, 0⟩, ⟨0, 1/10, true, 0⟩], 5, 1/10, 10, 1⟩ := by
    norm_num [Backpressure.record_request, Backpressure.updateMetrics,
      Backpressure.oldestTimestamp, dequeAppend, Backpressure.State.init, c7cfg]
  have h6 : Backpressure.record_request c7cfg
      (⟨0, none, 20, 0, [⟨0, 1/10, true, 0⟩, ⟨0, 1/10, true, 0⟩, ⟨0, 1/10, true, 0⟩, ⟨0, 1/10, true, 0⟩, ⟨0, 1/10, true, 0⟩], 5, 1/10, 10, 1⟩) 0 (1/10) true 0 =
      ⟨0, none, 20, 0, [⟨0, 1/10, true, 0⟩, ⟨0, 1/10, true, 0⟩, ⟨0, 1/10, true, 0⟩, ⟨0, 1/10, true, 0⟩, ⟨0, 1/10, true, 0⟩, ⟨0, 1/10, true, 0⟩], 6, 1/10, 10, 1⟩ := by
    norm_num [Backpressure.record_request, Backpressure.updateMetrics,
      Backpressure.oldestTimestamp, dequeAppend, Backpressure.State.init, c7cfg]
  have h7 : Backpressure.record_request c7cfg
      (⟨0, none, 20, 0, [⟨0, 1/10, true, 0⟩, ⟨0, 1/10, true, 0⟩, ⟨0, 1/10, true, 0⟩, ⟨0, 1/10, true, 0⟩, ⟨0, 1/10, true, 0⟩, ⟨0, 1/10, true, 0⟩], 6, 1/10, 10, 1⟩) 0 (1/10) true 0 =
      ⟨0, none, 20, 0, [⟨0, 1/10, true, 0⟩, ⟨0, 1/10, true, 0⟩, ⟨0, 1/10, true, 0⟩, ⟨0, 1/10, true, 0⟩, ⟨0, 1/10, true, 0⟩, ⟨0, 1/10, true, 0⟩, ⟨0, 1/10, true, 0⟩], 7, 1/10, 10, 1⟩ := by
    norm_num [Backpressure.record_request, Backpressure.updateMetrics,
      Backpressure.oldestTimestamp, dequeAppend, Backpressure.State.init, c7cfg]
  have h8 : Backpressure.record_request c7cfg
      (⟨0, none, 20, 0, [⟨0, 1/10, true, 0⟩, ⟨0, 1/10, true, 0⟩, ⟨0, 1/10, true, 0⟩, ⟨0, 1/10, true, 0⟩, ⟨0, 1/10, true, 0⟩, ⟨0, 1/10, true, 0⟩, ⟨0, 1/10, true, 0⟩], 7, 1/10, 10, 1⟩) 0 (1/10) true 0 =
      ⟨0, none, 20, 0, [⟨0, 1/10, true, 0⟩, ⟨0, 1/10, true, 0⟩, ⟨0, 1/10, true, 0⟩, ⟨0, 1/10, true, 0⟩, ⟨0, 1/10, true, 0⟩, ⟨0, 1/10, true, 0⟩, ⟨0, 1/10, true, 0⟩, ⟨0, 1/10, true, 0⟩], 8, 1/10, 10, 1⟩ := by
    norm_num [Backpressure.record_request, Backpressure.updateMetrics,
      Backpressure.oldestTimestamp, dequeAppend, Backpressure.State.init, c7cfg]
  have h9 : Backpressure.record_request c7cfg
      (⟨0, none, 20, 0, [⟨0, 1/10, true, 0⟩, ⟨0, 1/10, true, 0⟩, ⟨0, 1/10, true, 0⟩, ⟨0, 1/10, true, 0⟩, ⟨0, 1/10, true, 0⟩, ⟨0, 1/10, true, 0⟩, ⟨0, 1/10, true, 0⟩, ⟨0, 1/10, true, 0⟩], 8, 1/10, 10, 1⟩) 0 (1/10) true 0 =
      ⟨0, none, 20, 0, [⟨0, 1/10, true, 0⟩, ⟨0, 1/10, true, 0⟩, ⟨0, 1/10, true, 0⟩, ⟨0, 1/10, true, 0⟩, ⟨0, 1/10, true, 0⟩, ⟨0, 1/10, true, 0⟩, ⟨0, 1/10, true, 0⟩, ⟨0, 1/10, true, 0⟩, ⟨0, 1/10, true, 0⟩], 9, 1/10, 10, 1⟩ := by
    norm_num [Backpressure.record_request, Backpressure.updateMetrics,
      Backpressure.oldestTimestamp, dequeAppend, Backpressure.State.init, c7cfg]
  have h10 : Backpressure.record_request c7cfg
      (⟨0, none, 20, 0, [⟨0, 1/10, true, 0⟩, ⟨0, 1/10, true, 0⟩, ⟨0, 1/10, true, 0⟩, ⟨0, 1/10, true, 0⟩, ⟨0, 1/10, true, 0⟩, ⟨0, 1/10, true, 0⟩, ⟨0, 1/10, true, 0⟩, ⟨0, 1/10, true, 0⟩, ⟨0, 1/10, true, 0⟩], 9, 1/10, 10, 1⟩) 0 (1/10) true 0 =
      ⟨0, none, 20, 0, [⟨0, 1/10, true, 0⟩, ⟨0, 1/10, true, 0⟩, ⟨0, 1/10, true, 0⟩, ⟨0, 1/10, true, 0⟩, ⟨0, 1/10, true, 0⟩, ⟨0, 1/10, true, 0⟩, ⟨0, 1/10, true, 0⟩, ⟨0, 1/10, true, 0⟩, ⟨0, 1/10, true, 0⟩, ⟨0, 1/10, true, 0⟩], 10, 1/10, 10, 1⟩ := by
    norm_num [Backpressure.record_request, Backpressure.updateMetrics,
      Backpressure.oldestTimestamp, dequeAppend, Backpressure.State.init, c7cfg]
  rw [c7fast, h1, h2, h3, h4, h5, h6, h7, h8, h9, h10]

/-- C7 counterexample: feeding 5 `record_request(duration=2.0, success=True)`
calls to a fresh adaptive handler does NOT strictly decrease
`adaptive_rate` — it does not change it at all (still 10):
`record_request` never touches `adaptive_rate`; only a subsequent
`acquire` applies the multiplicative adjustment. -/
theorem C7_counterexample :
    c7slow.adaptive_rate = 10 ∧
    (Backpressure.State.init c7cfg 0).adaptive_rate = 10 := by
  rw [c7slow_eval]
  exact ⟨rfl, rfl⟩

/-- C7 (amended): the five slow records (duration 2.0 s, target 1 s) leave
`adaptive_rate` at 10, and the NEXT `acquire` on the adaptive strategy
multiplies it by 0.9 — a strict decrease to 9; the ten fast records
(duration 0.1 s) leave it at 10, and the next `acquire` multiplies it by
1.1 — a strict increase to 11; moreover one `acquire` step never lifts
`adaptive_rate` above 2× the configured base rate, and `record_request`
itself never changes it. -/
theorem C7_adaptive_direction :
    (c7slow.adaptive_rate = 10 ∧
      ((Backpressure.acquire c7cfg c7slow 0).2.1).adaptive_rate = 9) ∧
    (c7fast.adaptive_rate = 10 ∧
      ((Backpressure.acquire c7cfg c7fast 0).2.1).adaptive_rate = 11) ∧
    (∀ (s : Backpressure.State) (now : ℚ),
      s.adaptive_rate ≤ c7cfg.requests_per_second * 2 →
      ((Backpressure.acquire c7cfg s now).2.1).adaptive_rate ≤
        c7cfg.requests_per_second * 2) ∧
    (∀ (s : Backpressure.State) (now d q : ℚ) (b : Bool),
      (Backpressure.record_request c7cfg s now d b q).adaptive_rate =
        s.adaptive_rate) := by
  refine ⟨⟨by rw [c7slow_eval], ?_⟩, ⟨by rw [c7fast_eval], ?_⟩, ?_, ?_⟩
  · rw [c7slow_eval]
    norm_num [Backpressure.acquire, Backpressure.isCircuitOpen,
      Backpressure.adaptiveAcquire, Backpressure.tokenBucketAcquire, c7cfg]
  · rw [c7fast_eval]
    norm_num [Backpressure.acquire, Backpressure.isCircuitOpen,
      Backpressure.adaptiveAcquire, Backpressure.tokenBucketAcquire, c7cfg]
  · intro s now h
    exact Backpressure.acquire_adaptive_rate_bounded c7cfg s now
      (by norm_num [c7cfg]) h
  · intro s now d q b
    exact Backpressure.record_request_adaptive_rate c7cfg s now d b q

/-- Witness for the amended C7: the universally quantified parts applied at
a fresh handler. -/
theorem C7_adaptive_direction_witness :
    ((Backpressure.State.init c7cfg 0).adaptive_rate ≤
        c7cfg.requests_per_second * 2 ∧
      ((Backpressure.acquire c7cfg (Backpressure.State.init c7cfg 0) 3).2.1).adaptive_rate ≤
        c7cfg.requests_per_second * 2) ∧
    (Backpressure.record_request c7cfg (Backpressure.State.init c7cfg 0)
        1 2 true 0).adaptive_rate = (Backpressure.State.init c7cfg 0).adaptive_rate := by
  refine ⟨⟨by norm_num [Backpressure.State.init, c7cfg], ?_⟩, ?_⟩
  · exact C7_adaptive_direction.2.2.1 (Backpressure.State.init c7cfg 0) 3
      (by norm_num [Backpressure.State.init, c7cfg])
  · exact C7_adaptive_direction.2.2.2 (Backpressure.State.init c7cfg 0) 1 2 0 true

theorem find?_map_replace_ne {α : Type} (m : List (String × α)) (k : String)
    (v : α) (s : String) (h : k ≠ s) :
    (m.map (fun p => if p.1 = k then (k, v) else p)).find? (fun p => p.1 = s) =
      m.find? (fun p => p.1 = s) := by
  induction m with
  | nil => rfl
  | cons p rest ih =>
      by_cases hp : p.1 = k
      · simp only [List.map_cons, if_pos hp, List.find?_cons,
          show (decide ((k, v).1 = s)) = false from decide_eq_false h,
          show (decide (p.1 = s)) = false from decide_eq_false (by rw [hp]; exact h)]
        exact ih
      · simp only [List.map_cons, if_neg hp, List.find?_cons]
        cases hs : decide (p.1 = s)
        · exact ih
        · rfl

theorem dictLookup_dictInsert_ne {α : Type} (m : List (String × α)) (k : String)
    (v : α) (s : String) (h : k ≠ s) :
    dictLookup (dictInsert m k v) s = dictLookup m s := by
  unfold dictInsert dictLookup
  split
  · rw [find?_map_replace_ne m k v s h]
  · rw [List.find?_append]
    have hone : List.find? (fun p => p.1 = s) [(k, v)] = none := by
      simp [List.find?, decide_eq_false h]
    rw [hone]
    cases List.find? (fun p => p.1 = s) m <;> rfl

theorem any_key_dictInsert_ne_false {α : Type} (m : List (String × α)) (k : String)
    (v : α) (s : String) (hk : k ≠ s)
    (h : m.any (fun p => p.1 = s) = false) :
    (dictInsert m k v).any (fun p => p.1 = s) = false := by
  unfold dictInsert
  rw [List.any_eq_false] at h
  split
  · rw [List.any_eq_false]
    intro x hx
    rw [List.mem_map] at hx
    obtain ⟨p, hp, hfx⟩ := hx
    subst hfx
    by_cases hpk : p.1 = k
    · simp [if_pos hpk, decide_eq_false hk]
    · simp only [if_neg hpk]
      exact h p hp
  · rw [List.any_eq_false]
    intro x hx
    rw [List.mem_append] at hx
    cases hx with
    | inl hx => exact h x hx
    | inr hx =>
        simp only [List.mem_singleton] at hx
        subst hx
        simp [decide_eq_false hk]

theorem dictLookup_eq_none_of_any_false {α : Type} (m : List (String × α)) (s : String)
    (h : m.any (fun p => p.1 = s) = false) :
    dictLookup m s = none := by
  unfold dictLookup
  rw [List.any_eq_false] at h
  rw [List.find?_eq_none.mpr h]
  rfl

/-- `dictInsert` keeps the key list duplicate-free. -/
theorem dictInsert_keys_nodup {α : Type} (m : List (String × α)) (k : String) (v : α)
    (h : (m.map Prod.fst).Nodup) :
    ((dictInsert m k v).map Prod.fst).Nodup := by
  unfold dictInsert
  split
  case isTrue _ =>
    have hkeys : (m.map (fun p => if p.1 = k then (k, v) else p)).map Prod.fst =
        m.map Prod.fst := by
      rw [List.map_map]
      apply List.map_congr_left
      intro p _
      by_cases hp : p.1 = k
      · simp [if_pos hp, hp]
      · simp [if_neg hp]
    rw [hkeys]
    exact h
  case isFalse hmem =>
    rw [List.map_append, List.nodup_append]
    refine ⟨h, by simp, ?_⟩
    intro x hx
    simp only [List.map_cons, List.map_nil, List.mem_singleton]
    intro hxk
    subst hxk
    rw [List.mem_map] at hx
    obtain ⟨p, hp, hpx⟩ := hx
    exact hmem (by rw [List.any_eq_true]; exact ⟨p, hp, by simp [hpx]⟩)

/-- In a dict with duplicate-free keys, every entry is found by lookup of
its key. -/
theorem dictLookup_of_mem {α : Type} (m : List (String × α))
    (q : String × α) (hnd : (m.map Prod.fst).Nodup) (hq : q ∈ m) :
    dictLookup m q.1 = some q.2 := by
  unfold dictLookup
  induction m with
  | nil => simp at hq
  | cons p rest ih =>
      rw [List.map_cons, List.nodup_cons] at hnd
      rw [List.mem_cons] at hq
      cases hq with
      | inl hq =>
          subst hq
          simp [List.find?_cons]
      | inr hq =>
          have hne : p.1 ≠ q.1 := by
            intro he
            exact hnd.1 (he ▸ List.mem_map_of_mem Prod.fst hq)
          rw [List.find?_cons, show (decide (p.1 = q.1)) = false from decide_eq_false hne]
          exact ih hnd.2 hq

namespace Batch

theorem buildFutures_append_one (l : List (ScanRequest × ℕ)) (p : ScanRequest × ℕ) :
    buildFutures (l ++ [p]) = dictInsert (buildFutures l) p.1.symbol p.2 := by
  unfold buildFutures
  rw [List.foldl_append]
  rfl

theorem buildFutures_keys_nodup (pending : List (ScanRequest × ℕ)) :
    ((buildFutures pending).map Prod.fst).Nodup := by
  induction pending using List.reverseRecOn with
  | nil => simp [buildFutures]
  | append_singleton l p ih =>
      rw [buildFutures_append_one]
      exact dictInsert_keys_nodup _ _ _ ih

/-- The futures dict maps each symbol to the future of the LAST pending
request with that symbol (Python dict comprehension: later keys
overwrite earlier ones). -/
theorem dictLookup_buildFutures (pending : List (ScanRequest × ℕ)) (s : String) :
    dictLookup (buildFutures pending) s =
      (pending.reverse.find? (fun p => p.1.symbol = s)).map (fun p => p.2) := by
  induction pending using List.reverseRecOn with
  | nil => rfl
  | append_singleton l p ih =>
      rw [buildFutures_append_one, List.reverse_append]
      simp only [List.reverse_cons, List.reverse_nil, List.nil_append,
        List.singleton_append]
      by_cases hp : p.1.symbol = s
      · subst hp
        rw [dictLookup_dictInsert_self]
        simp [List.find?_cons]
      · rw [dictLookup_dictInsert_ne _ _ _ _ hp, List.find?_cons,
          show (decide (p.1.symbol = s)) = false from decide_eq_false hp]
        exact ih

theorem processBatch_cons (exec : ScanRequest → Except String (List Scanner.Spread))
    (x : ScanRequest) (rest : List ScanRequest) (b : BatchRequest) (m : BatchMetrics) :
    processBatch exec (x :: rest) b m =
      processBatch exec rest
        (match exec x with
         | Except.ok v => { b with results := dictInsert b.results x.symbol v }
         | Except.error e =>
             { b with errors := dictInsert (dictInsert b.errors x.symbol e) x.symbol e })
        (match exec x with
         | Except.ok _ =>
             { m with successful_requests := m.successful_requests + 1 }
         | Except.error _ => { m with failed_requests := m.failed_requests + 1 }) := by
  unfold processBatch processSingleRequest
  rw [List.foldl_cons]
  cases exec x <;> rfl

theorem processBatch_errors_preserve
    (exec : ScanRequest → Except String (List Scanner.Spread))
    (reqs : List ScanRequest) (s : String) (b : BatchRequest) (m : BatchMetrics)
    (hns : ∀ r ∈ reqs, r.symbol ≠ s) :
    dictLookup ((processBatch exec reqs b m).1).errors s = dictLookup b.errors s := by
  induction reqs generalizing b m with
  | nil => rfl
  | cons x rest ih =>
      rw [processBatch_cons]
      have hx : x.symbol ≠ s := hns x (List.mem_cons_self x rest)
      have hrest : ∀ r ∈ rest, r.symbol ≠ s :=
        fun r hr => hns r (List.mem_cons_of_mem x hr)
      cases hex : exec x with
      | error e =>
          rw [ih _ _ hrest]
          dsimp only
          rw [dictLookup_dictInsert_ne _ _ _ _ hx, dictLookup_dictInsert_ne _ _ _ _ hx]
      | ok v =>
          rw [ih _ _ hrest]

theorem processBatch_results_preserve
    (exec : ScanRequest → Except String (List Scanner.Spread))
    (reqs : List ScanRequest) (s : String) (b : BatchRequest) (m : BatchMetrics)
    (hns : ∀ r ∈ reqs, r.symbol ≠ s) :
    dictLookup ((processBatch exec reqs b m).1).results s = dictLookup b.results s := by
  induction reqs generalizing b m with
  | nil => rfl
  | cons x rest ih =>
      rw [processBatch_cons]
      have hx : x.symbol ≠ s := hns x (List.mem_cons_self x rest)
      have hrest : ∀ r ∈ rest, r.symbol ≠ s :=
        fun r hr => hns r (List.mem_cons_of_mem x hr)
      cases hex : exec x with
      | error e =>
          rw [ih _ _ hrest]
      | ok v =>
          rw [ih _ _ hrest]
          dsimp only
          rw [dictLookup_dictInsert_ne _ _ _ _ hx]

theorem processBatch_errors_lookup
    (exec : ScanRequest → Except String (List Scanner.Spread))
    (reqs : List ScanRequest) (q : ScanRequest) (e : String)
    (b : BatchRequest) (m : BatchMetrics)
    (hnd : (reqs.map ScanRequest.symbol).Nodup)
    (hmem : q ∈ reqs) (hq : exec q = Except.error e) :
    dictLookup ((processBatch exec reqs b m).1).errors q.symbol = some e := by
  induction reqs generalizing b m with
  | nil => simp at hmem
  | cons x rest ih =>
      rw [List.map_cons, List.nodup_cons] at hnd
      rw [processBatch_cons]
      rcases List.mem_cons.mp hmem with hxq | hq2
      · subst hxq
        rw [hq]
        have hns : ∀ r ∈ rest, r.symbol ≠ q.symbol := by
          intro r hr he
          exact hnd.1 (he ▸ List.mem_map_of_mem ScanRequest.symbol hr)
        rw [processBatch_errors_preserve exec rest q.symbol _ _ hns]
        exact dictLookup_dictInsert_self _ _ _
      · exact ih _ _ hnd.2 hq2

theorem processBatch_results_lookup
    (exec : ScanRequest → Except String (List Scanner.Spread))
    (reqs : List ScanRequest) (q : ScanRequest) (v : List Scanner.Spread)
    (b : BatchRequest) (m : BatchMetrics)
    (hnd : (reqs.map ScanRequest.symbol).Nodup)
    (hmem : q ∈ reqs) (hq : exec q = Except.ok v) :
    dictLookup ((processBatch exec reqs b m).1).results q.symbol = some v := by
  induction reqs generalizing b m with
  | nil => simp at hmem
  | cons x rest ih =>
      rw [List.map_cons, List.nodup_cons] at hnd
      rw [processBatch_cons]
      rcases List.mem_cons.mp hmem with hxq | hq2
      · subst hxq
        rw [hq]
        have hns : ∀ r ∈ rest, r.symbol ≠ q.symbol := by
          intro r hr he
          exact hnd.1 (he ▸ List.mem_map_of_mem ScanRequest.symbol hr)
        rw [processBatch_results_preserve exec rest q.symbol _ _ hns]
        exact dictLookup_dictInsert_self _ _ _
      · exact ih _ _ hnd.2 hq2

theorem processBatch_errors_none
    (exec : ScanRequest → Except String (List Scanner.Spread))
    (reqs : List ScanRequest) (q : ScanRequest) (v : List Scanner.Spread)
    (b : BatchRequest) (m : BatchMetrics)
    (hnd : (reqs.map ScanRequest.symbol).Nodup)
    (hmem : q ∈ reqs) (hq : exec q = Except.ok v)
    (hb : b.errors.any (fun p => p.1 = q.symbol) = false) :
    dictLookup ((processBatch exec reqs b m).1).errors q.symbol = none := by
  induction reqs generalizing b m with
  | nil => simp at hmem
  | cons x rest ih =>
      rw [List.map_cons, List.nodup_cons] at hnd
      rw [processBatch_cons]
      rcases List.mem_cons.mp hmem with hxq | hq2
      · subst hxq
        rw [hq]
        have hns : ∀ r ∈ rest, r.symbol ≠ q.symbol := by
          intro r hr he
          exact hnd.1 (he ▸ List.mem_map_of_mem ScanRequest.symbol hr)
        rw [processBatch_errors_preserve exec rest q.symbol _ _ hns]
        exact dictLookup_eq_none_of_any_false _ _ hb
      · have hxs : x.symbol ≠ q.symbol := by
          intro he
          exact hnd.1 (he ▸ List.mem_map_of_mem ScanRequest.symbol hq2)
        cases hex : exec x with
        | error e2 =>
            apply ih _ _ hnd.2 hq2
            exact any_key_dictInsert_ne_false _ _ _ _ hxs
              (any_key_dictInsert_ne_false _ _ _ _ hxs hb)
        | ok v2 =>
            exact ih _ _ hnd.2 hq2 hb

theorem buildFutures_of_nodup_from (pending : List (ScanRequest × ℕ))
    (m : List (String × ℕ))
    (hnd : (pending.map (fun p => p.1.symbol)).Nodup)
    (hdisj : ∀ p ∈ pending, m.any (fun q => q.1 = p.1.symbol) = false) :
    pending.foldl (fun m2 p => dictInsert m2 p.1.symbol p.2) m =
      m ++ pending.map (fun p => (p.1.symbol, p.2)) := by
  induction pending generalizing m with
  | nil => simp
  | cons p rest ih =>
      rw [List.map_cons, List.nodup_cons] at hnd
      rw [List.foldl_cons]
      have hm : dictInsert m p.1.symbol p.2 = m ++ [(p.1.symbol, p.2)] := by
        unfold dictInsert
        rw [if_neg (by
          rw [hdisj p (List.mem_cons_self p rest)]
          exact Bool.false_ne_true)]
      have hdisj2 : ∀ q ∈ rest,
          (m ++ [(p.1.symbol, p.2)]).any (fun q2 => q2.1 = q.1.symbol) = false := by
        intro q hq
        rw [List.any_append, hdisj q (List.mem_cons_of_mem p hq)]
        have hne : p.1.symbol ≠ q.1.symbol := by
          intro he
          exact hnd.1 (he ▸ List.mem_map_of_mem (fun p2 => p2.1.symbol) hq)
        simp [decide_eq_false hne]
      rw [hm, ih _ hnd.2 hdisj2, List.map_cons]
      simp

/-- With pairwise-distinct symbols, the futures dict is exactly the pending
list keyed by symbol: no future is lost to overwriting. -/
theorem buildFutures_of_nodup (pending : List (ScanRequest × ℕ))
    (hnd : (pending.map (fun p => p.1.symbol)).Nodup) :
    buildFutures pending = pending.map (fun p => (p.1.symbol, p.2)) := by
  have h := buildFutures_of_nodup_from pending [] hnd (fun p _ => rfl)
  simpa [buildFutures] using h

end Batch

/-- C6 counterexample: a batch of K = 2 pending requests sharing one
symbol, in which exactly one request's execution raises (the earlier one;
the later one succeeds with spread `[5]`).  The batch-completion path
resolves NEITHER caller as the claim demands: the whole resolution list is
`[(2, error "boom")]`, so the succeeding caller's future (handle 2) is
rejected with the sibling's recorded error instead of its own result, and
the failing caller's future (handle 1) is never resolved at all — the
symbol-keyed futures dict and error map do not isolate same-symbol
siblings. -/
theorem C6_counterexample :
    (fun rq : Batch.ScanRequest =>
        if rq.filters = [] then Except.error "boom" else Except.ok [5])
      (⟨"A", ["x"], 10⟩ : Batch.ScanRequest) = Except.ok ([5] : List Scanner.Spread) ∧
    (fun rq : Batch.ScanRequest =>
        if rq.filters = [] then Except.error "boom" else Except.ok [5])
      (⟨"A", [], 10⟩ : Batch.ScanRequest) = Except.error "boom" ∧
    Batch.processBatchAndResolve
      (fun rq : Batch.ScanRequest =>
        if rq.filters = [] then Except.error "boom" else Except.ok [5])
      [((⟨"A", [], 10⟩ : Batch.ScanRequest), 1), (⟨"A", ["x"], 10⟩, 2)] =
      [(2, Except.error "boom")] := by
  refine ⟨rfl, rfl, ?_⟩
  rfl

/-- C6 (amended): batch isolation holds for batches whose requests carry
pairwise-distinct symbols (each caller then owns its entry in the
symbol-keyed futures dict): if exactly one request's execution raises while
every other succeeds, batch completion resolves the failing request's
future with that error and every other caller's future with its own scan
result — one failure never blocks or corrupts sibling requests.  When two
requests share a symbol the property fails (see the counterexample): the
earlier same-symbol future is dropped from the dict and never resolved,
and the surviving future can receive the sibling's error. -/
theorem C6_batch_isolation
    (exec : Batch.ScanRequest → Except String (List Scanner.Spread))
    (pending : List (Batch.ScanRequest × ℕ))
    (hnd : (pending.map (fun p => p.1.symbol)).Nodup)
    (r : Batch.ScanRequest) (fr : ℕ) (e : String)
    (hmem : (r, fr) ∈ pending) (hfail : exec r = Except.error e)
    (hok : ∀ p ∈ pending, p.1 ≠ r → ∃ v, exec p.1 = Except.ok v) :
    (fr, Except.error e) ∈ Batch.processBatchAndResolve exec pending ∧
    (∀ p ∈ pending, p.1 ≠ r → ∃ v, exec p.1 = Except.ok v ∧
      (p.2, Except.ok v) ∈ Batch.processBatchAndResolve exec pending) := by
  have hreqnd : ((pending.map Prod.fst).map Batch.ScanRequest.symbol).Nodup := by
    rw [List.map_map]
    exact hnd
  have hrmem : r ∈ pending.map Prod.fst := by
    rw [List.mem_map]
    exact ⟨(r, fr), hmem, rfl⟩
  unfold Batch.processBatchAndResolve
  rw [Batch.buildFutures_of_nodup pending hnd]
  constructor
  · unfold Batch.resolveFutures
    rw [List.mem_map]
    refine ⟨(r.symbol, fr), List.mem_map_of_mem (fun p => (p.1.symbol, p.2)) hmem, ?_⟩
    dsimp only
    rw [Batch.processBatch_errors_lookup exec (pending.map Prod.fst) r e _ _
      hreqnd hrmem hfail]
  · intro p hp hpr
    obtain ⟨v, hv⟩ := hok p hp hpr
    have hpmem : p.1 ∈ pending.map Prod.fst := by
      rw [List.mem_map]
      exact ⟨p, hp, rfl⟩
    refine ⟨v, hv, ?_⟩
    unfold Batch.resolveFutures
    rw [List.mem_map]
    refine ⟨(p.1.symbol, p.2), List.mem_map_of_mem (fun p2 => (p2.1.symbol, p2.2)) hp, ?_⟩
    dsimp only
    rw [Batch.processBatch_errors_none exec (pending.map Prod.fst) p.1 v
      ⟨[], []⟩ ⟨0, 0⟩ hreqnd hpmem hv rfl]
    rw [Batch.processBatch_results_lookup exec (pending.map Prod.fst) p.1 v
      ⟨[], []⟩ ⟨0, 0⟩ hreqnd hpmem hv]
    rfl

/-- Witness for the amended C6: a three-request batch (distinct symbols A,
B, C) where the B request raises `boom` and the others return spread
`[5]`. -/
theorem C6_batch_isolation_witness :
    ((2, Except.error "boom") ∈ Batch.processBatchAndResolve
      (fun rq => if rq.symbol = "B" then Except.error "boom" else Except.ok [5])
      [(⟨"A", [], 10⟩, 1), (⟨"B", [], 10⟩, 2), (⟨"C", [], 10⟩, 3)]) ∧
    (∀ p ∈ [((⟨"A", [], 10⟩ : Batch.ScanRequest), 1), (⟨"B", [], 10⟩, 2), (⟨"C", [], 10⟩, 3)],
      p.1 ≠ (⟨"B", [], 10⟩ : Batch.ScanRequest) → ∃ v,
        (fun rq => if rq.symbol = "B" then Except.error "boom" else Except.ok [5]) p.1
            = Except.ok v ∧
        (p.2, Except.ok v) ∈ Batch.processBatchAndResolve
          (fun rq => if rq.symbol = "B" then Except.error "boom" else Except.ok [5])
          [(⟨"A", [], 10⟩, 1), (⟨"B", [], 10⟩, 2), (⟨"C", [], 10⟩, 3)]) := by
  apply C6_batch_isolation
    (fun rq => if rq.symbol = "B" then Except.error "boom" else Except.ok [5])
    [(⟨"A", [], 10⟩, 1), (⟨"B", [], 10⟩, 2), (⟨"C", [], 10⟩, 3)]
    (by simp) (⟨"B", [], 10⟩ : Batch.ScanRequest) 2 "boom" (by simp) rfl
  intro p hp hpr
  simp only [List.mem_cons, List.not_mem_nil, or_false] at hp
  rcases hp with rfl | rfl | rfl
  · exact ⟨[5], rfl⟩
  · exact absurd rfl hpr
  · exact ⟨[5], rfl⟩

/-- C9: `_flush_pending_batch` keys the result futures by request symbol in
a dict comprehension, so in a flushed batch holding an earlier request
`(r₁, f₁)` and a later request `(r₂, f₂)` with the same symbol (with `r₂`
the last such request), the futures dict retains only `f₂` for that symbol;
the batch-completion resolution (which walks the futures dict) therefore
never resolves `f₁` — the earlier duplicate-symbol caller receives no result
from the batch-completion path. -/
theorem C9_duplicate_symbol_future_lost
    (l₁ l₂ l₃ : List (Batch.ScanRequest × ℕ))
    (r₁ r₂ : Batch.ScanRequest) (f₁ f₂ : ℕ)
    (hsym : r₁.symbol = r₂.symbol)
    (hlast : ∀ p ∈ l₃, p.1.symbol ≠ r₂.symbol)
    (hnd : ((l₁ ++ (r₁, f₁) :: l₂ ++ (r₂, f₂) :: l₃).map Prod.snd).Nodup) :
    dictLookup (Batch.buildFutures (l₁ ++ (r₁, f₁) :: l₂ ++ (r₂, f₂) :: l₃))
      r₂.symbol = some f₂ ∧
    ∀ (exec : Batch.ScanRequest → Except String (List Scanner.Spread)) res,
      (f₁, res) ∉ Batch.processBatchAndResolve exec
        (l₁ ++ (r₁, f₁) :: l₂ ++ (r₂, f₂) :: l₃) := by
  have hl3 : ∀ x ∈ l₃.reverse, ¬ (decide (x.1.symbol = r₂.symbol) = true) := by
    intro x hx
    rw [List.mem_reverse] at hx
    simpa using hlast x hx
  have hrev : (l₁ ++ (r₁, f₁) :: l₂ ++ (r₂, f₂) :: l₃).reverse =
      l₃.reverse ++ ((r₂, f₂) :: (l₂.reverse ++ (r₁, f₁) :: l₁.reverse)) := by
    simp
  have hpart1 : dictLookup (Batch.buildFutures
      (l₁ ++ (r₁, f₁) :: l₂ ++ (r₂, f₂) :: l₃)) r₂.symbol = some f₂ := by
    rw [Batch.dictLookup_buildFutures, hrev, List.find?_append,
      List.find?_eq_none.mpr hl3, List.find?_cons,
      show (decide ((r₂, f₂).1.symbol = r₂.symbol)) = true from decide_eq_true rfl]
    rfl
  have hne : f₁ ≠ f₂ := by
    intro he
    subst he
    have hmap : (l₁ ++ (r₁, f₁) :: l₂ ++ (r₂, f₁) :: l₃).map Prod.snd =
        l₁.map Prod.snd ++
          ((f₁ :: l₂.map Prod.snd) ++ (f₁ :: l₃.map Prod.snd)) := by
      simp
    rw [hmap] at hnd
    have hdisj := (List.nodup_append.mp (List.nodup_append.mp hnd).2.1).2.2
    exact hdisj (List.mem_cons_self _ _) (List.mem_cons_self _ _)
  refine ⟨hpart1, ?_⟩
  intro exec res hmem
  unfold Batch.processBatchAndResolve Batch.resolveFutures at hmem
  rw [List.mem_map] at hmem
  obtain ⟨sf, hsf, heq⟩ := hmem
  have hsnd : sf.2 = f₁ := congrArg Prod.fst heq
  have hlookup := dictLookup_of_mem _ sf
    (Batch.buildFutures_keys_nodup (l₁ ++ (r₁, f₁) :: l₂ ++ (r₂, f₂) :: l₃)) hsf
  rw [hsnd] at hlookup
  have hchar := hlookup
  rw [Batch.dictLookup_buildFutures] at hchar
  obtain ⟨entry, hfind⟩ : ∃ entry,
      ((l₁ ++ (r₁, f₁) :: l₂ ++ (r₂, f₂) :: l₃).reverse.find?
        (fun p => p.1.symbol = sf.1)) = some entry := by
    cases hf : ((l₁ ++ (r₁, f₁) :: l₂ ++ (r₂, f₂) :: l₃).reverse.find?
        (fun p => p.1.symbol = sf.1)) with
    | none =>
        rw [hf] at hchar
        exact absurd hchar (by simp)
    | some entry => exact ⟨entry, rfl⟩
  rw [hfind] at hchar
  have hesnd : entry.2 = f₁ := by
    simpa using hchar
  have hpred := List.find?_some hfind
  have hentrymem : entry ∈ l₁ ++ (r₁, f₁) :: l₂ ++ (r₂, f₂) :: l₃ :=
    List.mem_reverse.mp (List.mem_of_find?_eq_some hfind)
  have hr1mem : (r₁, f₁) ∈ l₁ ++ (r₁, f₁) :: l₂ ++ (r₂, f₂) :: l₃ := by
    simp
  have hentry : entry = (r₁, f₁) :=
    List.inj_on_of_nodup_map hnd hentrymem hr1mem (by simpa using hesnd)
  have hs1 : sf.1 = r₂.symbol := by
    rw [hentry] at hpred
    have := of_decide_eq_true hpred
    dsimp only at this
    rw [← this, hsym]
  rw [hs1, hpart1] at hlookup
  exact hne (Option.some_inj.mp hlookup).symm

/-- Witness for C9: two pending requests both on symbol A with futures 1
and 2; the futures dict keeps only future 2, and future 1 is never
resolved (shown for the all-ok executor and its result). -/
theorem C9_duplicate_symbol_future_lost_witness :
    (Batch.ScanRequest.symbol ⟨"A", [], 10⟩ = Batch.ScanRequest.symbol ⟨"A", ["x"], 10⟩) ∧
    dictLookup (Batch.buildFutures
      [((⟨"A", [], 10⟩ : Batch.ScanRequest), 1), (⟨"A", ["x"], 10⟩, 2)])
      (Batch.ScanRequest.symbol ⟨"A", ["x"], 10⟩) = some 2 ∧
    (1, Except.ok [5]) ∉ Batch.processBatchAndResolve (fun _ => Except.ok [5])
      [((⟨"A", [], 10⟩ : Batch.ScanRequest), 1), (⟨"A", ["x"], 10⟩, 2)] := by
  have h := C9_duplicate_symbol_future_lost [] [] [] ⟨"A", [], 10⟩ ⟨"A", ["x"], 10⟩ 1 2
    rfl (by simp) (by simp)
  exact ⟨rfl, h.1, h.2 (fun _ => Except.ok [5]) (Except.ok [5])⟩
